import Mathlib

/-!
# Session lifecycle of the web-wechat protocol client

A shallow embedding of `src/protocol/bot.go`: the QR-code login loop
(`Bot.LoginWithUUID`, `Bot.Login`), session establishment (`handleLogin`,
`webInit`), warm start (`HotLogin`, `hotLoginInit`), teardown (`Logout`,
`stopAsyncCALL`, `Block`) and the sync loop (`asyncCall`,
`getNewWechatMessage`); and of two computations of `src/protocol/client.go`:
the serialisation of the sync cursor in `Client.SyncCheck` and the chunking of
`Client.WebWxUploadMediaByChunk`.

Conventions of the embedding

* A Go `error` value is `Option GoError`; `none` is `nil`.
* The `Caller` (transport) is code outside `bot.go`: it is an arbitrary
  deterministic state machine over a world type `W`; every call takes the
  current world and returns its answer together with the next world.
* The unbounded `for` loops take a fuel argument; `none` means the fuel ran
  out before the loop returned.
* A run of the program appends to `Bot.trace` one `Event` per transport call
  and per callback invocation, in program order.  Callbacks are user code:
  they are observed through the trace and are assumed not to write to the Bot.
* `webInit` ends with `go func() ...`: the spawn is counted in
  `Bot.goroutines`, and the body of the goroutine is `syncGoroutine`.
-/

namespace WebWechat

/-! ## Data model -/

/-- Raw bytes of a response body (`[]byte`). -/
abbrev Bytes := List Nat

/-- Go `error` values that occur in `bot.go`. -/
inductive GoError where
  /-- The value of `errors.New(msg)`. -/
  | errorsNew (msg : String)
  /-- A `*SyncCheckResponse` returned as an error by `asyncCall`. -/
  | syncCheck (retCode selector : String)
  /-- An error made outside `bot.go` (transport, storage, `url.Parse`). -/
  | external (tag : Nat)
  deriving DecidableEq, Repr

/-- Credentials issued at confirmation (`LoginInfo`), the fields `bot.go` and `client.go` read. -/
structure LoginInfo where
  WxUin : Int
  WxSid : String
  SKey : String
  PassTicket : String
  deriving DecidableEq, Repr

/-- Request context sent with every authenticated call (`BaseRequest`). -/
structure BaseRequest where
  Uin : Int
  Sid : String
  Skey : String
  DeviceID : String
  deriving DecidableEq, Repr

/-- One counter of the sync cursor (`item.Key`, `item.Val` in `Client.SyncCheck`). -/
structure SyncKeyItem where
  Key : Int
  Val : Int
  deriving DecidableEq, Repr

/-- The sync cursor (`SyncKey`): an ordered list of counters. -/
structure SyncKey where
  Count : Int
  List : List SyncKeyItem
  deriving DecidableEq, Repr

/-- The user profile returned by `WebInit` (`resp.User`). -/
structure User where
  UserName : String
  deriving DecidableEq, Repr

/-- The current user (`Self`); its back-pointers to the Bot are not data. -/
structure Self where
  User : User
  deriving DecidableEq, Repr

/-- Answer of `Caller.WebInit` (`WebInitResponse`). -/
structure WebInitResponse where
  User : User
  SyncKey : SyncKey
  deriving DecidableEq, Repr

/-- Answer of `Caller.CheckLogin`: status code and raw body. -/
structure CheckLoginResponse where
  Code : String
  Raw : Bytes
  deriving DecidableEq, Repr

/-- Answer of `Caller.SyncCheck`. -/
structure SyncCheckResponse where
  RetCode : String
  Selector : String
  deriving DecidableEq, Repr

/-- A message record of a sync batch.  `Bot` tells whether the back-reference
to the owning Bot has been attached. -/
structure Message where
  MsgId : String
  Content : String
  Bot : Bool
  deriving DecidableEq, Repr

/-- Modelled from the spec: `Message.init(b)` is defined in a file of the
repository that is not under `src/`; the spec says it attaches "a
back-reference to the owning Session" to the record. -/
def Message.init (m : Message) : Message := { m with Bot := true }

/-- Answer of `Caller.WebWxSync`: the new cursor and the ordered records. -/
structure WebWxSyncResponse where
  SyncKey : SyncKey
  AddMsgList : List Message
  deriving DecidableEq, Repr

/-- An `*http.Cookie`. -/
structure Cookie where
  Name : String
  Value : String
  deriving DecidableEq, Repr

/-- The `map[string][]*http.Cookie` of a snapshot, as the list of its entries
in the order `range` visits them (Go leaves that order unspecified, so a
statement for all lists is a statement for all iteration orders). -/
abbrev CookieMap := List (String × List Cookie)

/-- Session state kept for the lifetime of a login (`Storage`). -/
structure Storage where
  LoginInfo : Option LoginInfo
  Request : Option BaseRequest
  Response : Option WebInitResponse
  deriving DecidableEq, Repr

/-- The snapshot written and read by hot login (`HotReloadStorageItem`). -/
structure HotReloadStorageItem where
  BaseRequest : Option BaseRequest
  Cookies : CookieMap
  LoginInfo : Option LoginInfo
  WechatDomain : String
  deriving DecidableEq, Repr

/-- The `HotReloadStorage` interface as `bot.go` uses it. -/
structure HotReloadStorage (W : Type) where
  Load : W → Option GoError × W
  GetHotReloadStorageItem : W → HotReloadStorageItem
  Dump : HotReloadStorageItem → W → Option GoError × W

/-- The four status constants of the login `switch`.  They are declared
outside `src/`; a Go `switch` with duplicate constant cases does not compile,
so they are pairwise distinct. -/
structure StatusCodes where
  statusSuccess : String
  statusScanned : String
  statusTimeout : String
  statusWait : String
  distinct : [statusSuccess, statusScanned, statusTimeout, statusWait].Nodup

/-- The transport (`Caller`), one field per method `bot.go` calls. -/
structure Caller (W : Type) where
  GetLoginUUID : W → Except GoError String × W
  CheckLogin : String → W → Except GoError CheckLoginResponse × W
  GetLoginInfo : Bytes → W → Except GoError LoginInfo × W
  WebInit : Option BaseRequest → W → Except GoError WebInitResponse × W
  WebWxStatusNotify : Option BaseRequest → WebInitResponse → Option LoginInfo → W → Option GoError × W
  SyncCheck : Option LoginInfo → Option WebInitResponse → W → Except GoError SyncCheckResponse × W
  WebWxSync : Option BaseRequest → Option WebInitResponse → Option LoginInfo → W →
    Except GoError WebWxSyncResponse × W
  Logout : Option LoginInfo → W → Option GoError × W
  /-- The cookies captured by `Client.Do` so far (`Client.GetCookieMap`). -/
  GetCookieMap : W → CookieMap

/-- Everything `bot.go` uses that is defined outside it. -/
structure Env (W : Type) where
  codes : StatusCodes
  Caller : Caller W
  /-- The function `url.Parse` of the Go library; a parsed URL is kept as its text. -/
  urlParse : String → Except GoError String
  /-- The function `GetRandomDeviceId` of `parser.go`, which draws from a clock-seeded generator. -/
  GetRandomDeviceId : W → String × W
  /-- The method `SyncCheckResponse.Success`. -/
  Success : SyncCheckResponse → Bool
  /-- The method `SyncCheckResponse.NorMal`. -/
  NorMal : SyncCheckResponse → Bool

/-- Observable steps of a run, in program order. -/
inductive Event where
  | getLoginUUID
  | uuidCallback (uuid : String)
  | checkLogin (uuid : String)
  | scanCallBack (body : Bytes)
  | loginCallBack (body : Bytes)
  | logoutCallBack
  | handleLogin (data : Bytes)
  | getLoginInfo (data : Bytes)
  | dump
  | load
  | webInit
  | statusNotify
  | spawnSync
  | syncCheck
  | webWxSync
  | setSyncKey (key : SyncKey)
  | messageHandler (m : Message)
  | callerLogout
  | errorHandler (e : GoError)
  deriving DecidableEq, Repr

/-- What `Bot.GetMessageErrorHandler` holds when it is not nil. -/
inductive ErrorHandler where
  /-- The default installed by the sync goroutine: `b.stopAsyncCALL`. -/
  | stopAsyncCALL
  /-- A handler registered by the user; it is observed through the trace. -/
  | custom
  deriving DecidableEq, Repr

/-- The `Bot`.  A callback field holds `true` when the callback is not nil.
`done` says that `b.context` has been cancelled.  `jar` is the list of
`Jar.SetCookies` calls made on the client's cookie jar, `domain` is
`Caller.Client.domain`, `world` the state of the transport, and `trace` and
`goroutines` record the run. -/
structure Bot (W : Type) where
  ScanCallBack : Bool
  LoginCallBack : Bool
  LogoutCallBack : Bool
  UUIDCallback : Bool
  MessageHandler : Bool
  GetMessageErrorHandler : Option ErrorHandler
  isHot : Bool
  err : Option GoError
  done : Bool
  self : Option Self
  storage : Storage
  hotReloadStorage : Option (HotReloadStorage W)
  domain : String
  jar : List (String × List Cookie)
  world : W
  trace : List Event
  goroutines : Nat

/-- Result of a function that may also end in a run-time panic (nil dereference). -/
inductive Outcome where
  | ret (err : Option GoError)
  | panic
  deriving DecidableEq, Repr

variable {W : Type}

/-- Append one event to the trace. -/
def Bot.emit (b : Bot W) (e : Event) : Bot W := { b with trace := b.trace ++ [e] }

/-- Constructor `NewBot`: empty storage, a fresh context that is not cancelled. -/
def NewBot (w : W) : Bot W :=
  { ScanCallBack := false, LoginCallBack := false, LogoutCallBack := false,
    UUIDCallback := false, MessageHandler := false, GetMessageErrorHandler := none,
    isHot := false, err := none, done := false, self := none,
    storage := { LoginInfo := none, Request := none, Response := none },
    hotReloadStorage := none, domain := "", jar := [], world := w, trace := [],
    goroutines := 0 }

/-! ## Operations of `bot.go` -/

/-- Method `Bot.Alive`: a current user exists and the context is not done. -/
def Bot.Alive (b : Bot W) : Bool :=
  match b.self with
  | none => false
  | some _ => if b.done then false else true

/-- Method `Bot.CrashReason`. -/
def Bot.CrashReason (b : Bot W) : Option GoError := b.err

/-- Method `Bot.stopAsyncCALL`: cancel the context, record the error, drop the user. -/
def stopAsyncCALL (err : GoError) (b : Bot W) : Bot W :=
  { b with done := true, err := some err, self := none }

/-- Method `Bot.DumpHotReloadStorage`. -/
def DumpHotReloadStorage (env : Env W) (b : Bot W) : Option GoError × Bot W :=
  match b.hotReloadStorage with
  | none => (some (.errorsNew "hotReloadStorage can be nil"), b)
  | some st =>
    let cookies := env.Caller.GetCookieMap b.world
    let item : HotReloadStorageItem :=
      { BaseRequest := b.storage.Request, Cookies := cookies,
        LoginInfo := b.storage.LoginInfo, WechatDomain := b.domain }
    let b := b.emit .dump
    match st.Dump item b.world with
    | (r, w) => (r, { b with world := w })

/-- Method `Bot.webInit`: fetch the profile, set the current user, notify the
phone, spawn the sync goroutine. -/
def webInit (env : Env W) (b : Bot W) : Option GoError × Bot W :=
  let req := b.storage.Request
  let info := b.storage.LoginInfo
  let b := b.emit .webInit
  match env.Caller.WebInit req b.world with
  | (.error e, w) => (some e, { b with world := w })
  | (.ok resp, w) =>
    let b := { b with world := w, self := some { User := resp.User },
                      storage := { b.storage with Response := some resp } }
    let b := b.emit .statusNotify
    match env.Caller.WebWxStatusNotify req resp info b.world with
    | (some e, w) => (some e, { b with world := w })
    | (none, w) =>
      (none, { (b.emit .spawnSync) with world := w, goroutines := b.goroutines + 1 })

/-- Method `Bot.handleLogin`: extract the credentials, build the request
context, dump the snapshot when hot, then `webInit`. -/
def handleLogin (env : Env W) (data : Bytes) (b : Bot W) : Option GoError × Bot W :=
  let b := (b.emit (.handleLogin data)).emit (.getLoginInfo data)
  match env.Caller.GetLoginInfo data b.world with
  | (.error e, w) => (some e, { b with world := w })
  | (.ok info, w) =>
    let b := { b with world := w, storage := { b.storage with LoginInfo := some info } }
    match env.GetRandomDeviceId b.world with
    | (dev, w) =>
      let request : BaseRequest :=
        { Uin := info.WxUin, Sid := info.WxSid, Skey := info.SKey, DeviceID := dev }
      let b := { b with world := w, storage := { b.storage with Request := some request } }
      if b.isHot then
        match DumpHotReloadStorage env b with
        | (some e, b) => (some e, b)
        | (none, b) => webInit env b
      else webInit env b

/-- Method `Bot.LoginWithUUID`: poll `CheckLogin` until a terminal status. -/
def LoginWithUUID (env : Env W) (uuid : String) : Nat → Bot W → Option (Option GoError × Bot W)
  | 0, _ => none
  | fuel + 1, b =>
    let b := b.emit (.checkLogin uuid)
    match env.Caller.CheckLogin uuid b.world with
    | (.error e, w) => some (some e, { b with world := w })
    | (.ok resp, w) =>
      let b := { b with world := w }
      if resp.Code = env.codes.statusSuccess then
        let b := if b.LoginCallBack then b.emit (.loginCallBack resp.Raw) else b
        some (handleLogin env resp.Raw b)
      else if resp.Code = env.codes.statusScanned then
        let b := if b.ScanCallBack then b.emit (.scanCallBack resp.Raw) else b
        LoginWithUUID env uuid fuel b
      else if resp.Code = env.codes.statusTimeout then
        some (some (.errorsNew "login timeout"), b)
      else if resp.Code = env.codes.statusWait then
        LoginWithUUID env uuid fuel b
      else
        LoginWithUUID env uuid fuel b

/-- The polling loop of `Bot.Login` (lines 198-221), a copy of the loop of
`LoginWithUUID` with its own expiry message. -/
def Login.loop (env : Env W) (uuid : String) : Nat → Bot W → Option (Option GoError × Bot W)
  | 0, _ => none
  | fuel + 1, b =>
    let b := b.emit (.checkLogin uuid)
    match env.Caller.CheckLogin uuid b.world with
    | (.error e, w) => some (some e, { b with world := w })
    | (.ok resp, w) =>
      let b := { b with world := w }
      if resp.Code = env.codes.statusSuccess then
        let b := if b.LoginCallBack then b.emit (.loginCallBack resp.Raw) else b
        some (handleLogin env resp.Raw b)
      else if resp.Code = env.codes.statusScanned then
        let b := if b.ScanCallBack then b.emit (.scanCallBack resp.Raw) else b
        Login.loop env uuid fuel b
      else if resp.Code = env.codes.statusTimeout then
        some (some (.errorsNew "login time out"), b)
      else if resp.Code = env.codes.statusWait then
        Login.loop env uuid fuel b
      else
        Login.loop env uuid fuel b

/-- Method `Bot.Login`: request a QR identifier, announce it, then poll. -/
def Login (env : Env W) (fuel : Nat) (b : Bot W) : Option (Option GoError × Bot W) :=
  let b := b.emit .getLoginUUID
  match env.Caller.GetLoginUUID b.world with
  | (.error e, w) => some (some e, { b with world := w })
  | (.ok uuid, w) =>
    let b := { b with world := w }
    let b := if b.UUIDCallback then b.emit (.uuidCallback uuid) else b
    Login.loop env uuid fuel b

/-- Method `Bot.Logout`. -/
def Logout (env : Env W) (b : Bot W) : Option GoError × Bot W :=
  if b.Alive then
    let b := if b.LogoutCallBack then b.emit .logoutCallBack else b
    let info := b.storage.LoginInfo
    let b := b.emit .callerLogout
    match env.Caller.Logout info b.world with
    | (some e, w) => (some e, { b with world := w })
    | (none, w) => (none, stopAsyncCALL (.errorsNew "logout") { b with world := w })
  else (some (.errorsNew "user not login"), b)

/-- Method `Bot.Block`.  `atCall` is the Bot when `Block` is called and `later`
the Bot at a later moment; the receive `<-b.context.Done()` is over as soon
as the context is cancelled, and `none` means that `Block` is still waiting. -/
def Block (atCall later : Bot W) : Option (Option GoError) :=
  match atCall.self with
  | none => some (some (.errorsNew "`Block` must be called after user login"))
  | some _ => if later.done then some none else none

/-- The `range` loop of `hotLoginInit` over the snapshot's cookies. -/
def hotLoginInit.setCookies (env : Env W) : CookieMap → Bot W → Option GoError × Bot W
  | [], b => (none, b)
  | (u, ck) :: rest, b =>
    match env.urlParse u with
    | .error e => (some e, b)
    | .ok path => hotLoginInit.setCookies env rest { b with jar := b.jar ++ [(path, ck)] }

/-- Method `Bot.hotLoginInit`: apply the snapshot to the jar, the storage and the client. -/
def hotLoginInit (env : Env W) (b : Bot W) : Outcome × Bot W :=
  match b.hotReloadStorage with
  | none => (.panic, b)
  | some st =>
    let item := st.GetHotReloadStorageItem b.world
    match hotLoginInit.setCookies env item.Cookies b with
    | (some e, b) => (.ret (some e), b)
    | (none, b) =>
      (.ret none,
        { b with storage := { b.storage with LoginInfo := item.LoginInfo, Request := item.BaseRequest },
                 domain := item.WechatDomain })

/-- Lift the result of a login flow to an `Outcome`. -/
def liftRet (r : Option (Option GoError × Bot W)) : Option (Outcome × Bot W) :=
  r.map fun x => (.ret x.1, x.2)

/-- Method `Bot.HotLogin`; `retry` is the variadic `retry ...bool`. -/
def HotLogin (env : Env W) (storage : HotReloadStorage W) (retry : List Bool) (fuel : Nat)
    (b : Bot W) : Option (Outcome × Bot W) :=
  let b := { b with isHot := true, hotReloadStorage := some storage }
  let b := b.emit .load
  match storage.Load b.world with
  | (some _, w) => liftRet (Login env fuel { b with world := w })
  | (none, w) =>
    match hotLoginInit env { b with world := w } with
    | (.panic, b) => some (.panic, b)
    | (.ret (some e), b) => some (.ret (some e), b)
    | (.ret none, b) =>
      match webInit env b with
      | (none, b) => some (.ret none, b)
      | (some e, b) =>
        match retry with
        | true :: _ => liftRet (Login env fuel b)
        | _ => some (.ret (some e), b)

/-- Method `Bot.HotLoginWithUUID`. -/
def HotLoginWithUUID (env : Env W) (uuid : String) (storage : HotReloadStorage W)
    (retry : List Bool) (fuel : Nat) (b : Bot W) : Option (Outcome × Bot W) :=
  let b := { b with isHot := true, hotReloadStorage := some storage }
  let b := b.emit .load
  match storage.Load b.world with
  | (some _, w) => liftRet (LoginWithUUID env uuid fuel { b with world := w })
  | (none, w) =>
    match hotLoginInit env { b with world := w } with
    | (.panic, b) => some (.panic, b)
    | (.ret (some e), b) => some (.ret (some e), b)
    | (.ret none, b) =>
      match webInit env b with
      | (none, b) => some (.ret none, b)
      | (some e, b) =>
        match retry with
        | true :: _ => liftRet (LoginWithUUID env uuid fuel b)
        | _ => some (.ret (some e), b)

/-- The `range` loop of `getNewWechatMessage`: `message.init(b)`, then the handler when one is set. -/
def getNewWechatMessage.dispatch : List Message → Bot W → Bot W
  | [], b => b
  | message :: rest, b =>
    let message := message.init
    let b := if b.MessageHandler then b.emit (.messageHandler message) else b
    getNewWechatMessage.dispatch rest b

/-- Method `Bot.getNewWechatMessage`: fetch a batch, store its cursor, dispatch its records. -/
def getNewWechatMessage (env : Env W) (b : Bot W) : Outcome × Bot W :=
  let b := b.emit .webWxSync
  match env.Caller.WebWxSync b.storage.Request b.storage.Response b.storage.LoginInfo b.world with
  | (.error e, w) => (.ret (some e), { b with world := w })
  | (.ok resp, w) =>
    let b := { b with world := w }
    match b.storage.Response with
    | none => (.panic, b)
    | some r =>
      let b := { b with storage := { b.storage with Response := some { r with SyncKey := resp.SyncKey } } }
      let b := b.emit (.setSyncKey resp.SyncKey)
      (.ret none, getNewWechatMessage.dispatch resp.AddMsgList b)

/-- Method `Bot.asyncCall`; the fuel bounds the number of loop bodies run.  The
final `return err` is reached only from the loop test, where `err` holds the
nil of the last completed body (or its zero value). -/
def asyncCall (env : Env W) (fuel : Nat) (b : Bot W) : Option (Outcome × Bot W) :=
  if b.Alive then
    match fuel with
    | 0 => none
    | fuel + 1 =>
      let b := b.emit .syncCheck
      match env.Caller.SyncCheck b.storage.LoginInfo b.storage.Response b.world with
      | (.error e, w) => some (.ret (some e), { b with world := w })
      | (.ok resp, w) =>
        let b := { b with world := w }
        if !env.Success resp then
          some (.ret (some (.syncCheck resp.RetCode resp.Selector)), b)
        else if !env.NorMal resp then
          match getNewWechatMessage env b with
          | (.ret none, b) => asyncCall env fuel b
          | (r, b) => some (r, b)
        else asyncCall env fuel b
  else some (.ret none, b)

/-- The goroutine spawned by `webInit` (lines 290-297): install the default
failure handler when none is set, run the sync loop, hand its error to the handler. -/
def syncGoroutine (env : Env W) (fuel : Nat) (b : Bot W) : Option (Outcome × Bot W) :=
  let b := match b.GetMessageErrorHandler with
    | none => { b with GetMessageErrorHandler := some .stopAsyncCALL }
    | some _ => b
  match asyncCall env fuel b with
  | none => none
  | some (.panic, b) => some (.panic, b)
  | some (.ret none, b) => some (.ret none, b)
  | some (.ret (some e), b) =>
    let b := b.emit (.errorHandler e)
    match b.GetMessageErrorHandler with
    | some .custom => some (.ret none, b)
    | _ => some (.ret none, stopAsyncCALL e b)

/-! ## A scripted transport, for concrete runs -/

/-- World of the scripted transport: the answers still to be given.  The
queues `checkLogin`, `syncCheck` and `webWxSync` lose their head at each call;
an empty queue answers with the error `external 0`. -/
structure Script where
  uuid : Except GoError String
  checkLogin : List (Except GoError CheckLoginResponse)
  loginInfo : Except GoError LoginInfo
  webInit : Except GoError WebInitResponse
  notify : Option GoError
  syncCheck : List (Except GoError SyncCheckResponse)
  webWxSync : List (Except GoError WebWxSyncResponse)
  logout : Option GoError
  snapshot : Option HotReloadStorageItem

/-- Head of a queue of scripted answers. -/
def Script.next {α : Type} : List (Except GoError α) → Except GoError α × List (Except GoError α)
  | [] => (.error (.external 0), [])
  | a :: rest => (a, rest)

/-- The scripted transport. -/
def Script.Caller : Caller Script where
  GetLoginUUID w := (w.uuid, w)
  CheckLogin _ w := ((Script.next w.checkLogin).1, { w with checkLogin := (Script.next w.checkLogin).2 })
  GetLoginInfo _ w := (w.loginInfo, w)
  WebInit _ w := (w.webInit, w)
  WebWxStatusNotify _ _ _ w := (w.notify, w)
  SyncCheck _ _ w := ((Script.next w.syncCheck).1, { w with syncCheck := (Script.next w.syncCheck).2 })
  WebWxSync _ _ _ w := ((Script.next w.webWxSync).1, { w with webWxSync := (Script.next w.webWxSync).2 })
  Logout _ w := (w.logout, w)
  GetCookieMap _ := []

/-- A snapshot store over the scripted world: `Load` fails when there is no snapshot. -/
def Script.Storage : HotReloadStorage Script where
  Load w := (match w.snapshot with | none => some (.external 2) | some _ => none, w)
  GetHotReloadStorageItem w :=
    match w.snapshot with
    | some item => item
    | none => { BaseRequest := none, Cookies := [], LoginInfo := none, WechatDomain := "" }
  Dump item w := (none, { w with snapshot := some item })

/-- The status constants with the values the web protocol uses. -/
def Script.codes : StatusCodes where
  statusSuccess := "200"
  statusScanned := "201"
  statusTimeout := "400"
  statusWait := "408"
  distinct := by decide

/-- The scripted environment.  `urlParse` keeps the first check of Go's
`url.Parse`, which rejects a string holding an ASCII control character. -/
def Script.env : Env Script where
  codes := Script.codes
  Caller := Script.Caller
  urlParse u := if u.toList.any (fun c => decide (c.toNat < 32) || decide (c.toNat = 127)) then
    .error (.external 1) else .ok u
  GetRandomDeviceId w := ("e000000000000000", w)
  Success r := r.RetCode == "0"
  NorMal r := r.RetCode == "0" && r.Selector == "0"

/-- A script in which every single answer is a success and every queue is empty. -/
def Script.quiet : Script where
  uuid := .ok "abc123"
  checkLogin := []
  loginInfo := .ok { WxUin := 7, WxSid := "sid", SKey := "skey", PassTicket := "ticket" }
  webInit := .ok { User := { UserName := "@me" }, SyncKey := { Count := 1, List := [{ Key := 1, Val := 10 }] } }
  notify := none
  syncCheck := []
  webWxSync := []
  logout := none
  snapshot := none

/-- The quiet script with the given queue of `CheckLogin` answers. -/
def Script.login (answers : List (Except GoError CheckLoginResponse)) : Script :=
  { Script.quiet with checkLogin := answers }

/-- A fresh Bot over the world `w`; `callbacks` registers `ScanCallBack` and `LoginCallBack`. -/
def Script.bot (w : Script) (callbacks : Bool) : Bot Script :=
  { NewBot w with ScanCallBack := callbacks, LoginCallBack := callbacks }

/-! ## Specification vocabulary -/

/-- Starting in world `w`, the transport answers the next `CheckLogin uuid`
calls with the responses `rs`, one after the other and without a transport
error, and is then in world `w1`. -/
def Answers (env : Env W) (uuid : String) : List CheckLoginResponse → W → W → Prop
  | [], w, w1 => w1 = w
  | r :: rs, w, w1 => ∃ w0, env.Caller.CheckLogin uuid w = (.ok r, w0) ∧ Answers env uuid rs w0 w1

/-- A response that keeps the login loop polling: Waiting or Scanned. -/
def Pending (env : Env W) (r : CheckLoginResponse) : Prop :=
  r.Code = env.codes.statusWait ∨ r.Code = env.codes.statusScanned

/-- Events of one poll answered by the pending response `r`: the call, and the
scan callback when `r` is Scanned and the callback is registered. -/
def pollEvents (env : Env W) (uuid : String) (scan : Bool) (r : CheckLoginResponse) : List Event :=
  if r.Code = env.codes.statusScanned ∧ scan = true then [.checkLogin uuid, .scanCallBack r.Raw]
  else [.checkLogin uuid]

/-- Events of a run of polls answered by pending responses. -/
def pollTrace (env : Env W) (uuid : String) (scan : Bool) : List CheckLoginResponse → List Event
  | [] => []
  | r :: rs => pollEvents env uuid scan r ++ pollTrace env uuid scan rs

/-- The Bot after the polls answered by the pending responses `pre`. -/
def afterPolls (env : Env W) (uuid : String) (pre : List CheckLoginResponse) (w1 : W)
    (b : Bot W) : Bot W :=
  { b with world := w1, trace := b.trace ++ pollTrace env uuid b.ScanCallBack pre }

/-- Number of `CheckLogin` calls recorded in a trace. -/
def checkLoginCalls (tr : List Event) : Nat :=
  (tr.filter fun e => match e with | .checkLogin _ => true | _ => false).length

/-- The callback invocations of the login loop recorded in a trace, in order. -/
def loginCallbacks (tr : List Event) : List Event :=
  tr.filter fun e => match e with
    | .scanCallBack _ => true
    | .loginCallBack _ => true
    | _ => false

/-- Number of `handleLogin` entries recorded in a trace. -/
def handleLoginCalls (tr : List Event) : Nat :=
  (tr.filter fun e => match e with | .handleLogin _ => true | _ => false).length

/-- Events that session establishment (`handleLogin` after its entry, `webInit`,
`DumpHotReloadStorage`) can record. -/
def Event.establishing : Event → Bool
  | .getLoginInfo _ => true
  | .dump => true
  | .webInit => true
  | .statusNotify => true
  | .spawnSync => true
  | _ => false

/-- The Bot on which `handleLogin` is called once the polls have been answered
by the pending responses `pre` and then by Confirmed with body `p`, the
transport being left in world `w1`. -/
def confirmedBot (env : Env W) (uuid : String) (pre : List CheckLoginResponse) (p : Bytes)
    (w1 : W) (b : Bot W) : Bot W :=
  { b with
    world := w1
    trace := b.trace ++ pollTrace env uuid b.ScanCallBack pre ++
      .checkLogin uuid :: (if b.LoginCallBack then [.loginCallBack p] else []) }

/-- The scan callbacks a run of pending answers gives rise to: one per Scanned
answer, in order, carrying that answer's raw body. -/
def scanCalls (env : Env W) (pre : List CheckLoginResponse) : List Event :=
  (pre.filter fun r => decide (r.Code = env.codes.statusScanned)).map fun r => .scanCallBack r.Raw

/-- Number of `LoginCallBack` invocations recorded in a trace. -/
def loginCallBackCalls (tr : List Event) : Nat :=
  (tr.filter fun e => match e with | .loginCallBack _ => true | _ => false).length

/-- The Bot when the poll that follows the pending answers `pre` makes the
loop return at once (expiry, or a transport error), the transport being left
in world `w1`. -/
def stoppedBot (env : Env W) (uuid : String) (pre : List CheckLoginResponse) (w1 : W)
    (b : Bot W) : Bot W :=
  { b with
    world := w1
    trace := b.trace ++ pollTrace env uuid b.ScanCallBack pre ++ [.checkLogin uuid] }

/-- The Bot on which the loop of `Login` starts, once `GetLoginUUID` has
answered `uuid` and left the transport in world `wu`. -/
def issuedBot (uuid : String) (wu : W) (b : Bot W) : Bot W :=
  { b with
    world := wu
    trace := b.trace ++ .getLoginUUID :: (if b.UUIDCallback then [.uuidCallback uuid] else []) }

/-- What a run that stopped after `n` polls leaves behind, from Bot `b` to Bot
`b1`: no `LoginCallBack`, no `handleLogin`, exactly `n` `CheckLogin` calls,
the transport in the world `w1` of the last answer, and the session store and
current user as they were. -/
structure StoppedAfter (n : Nat) (w1 : W) (b b1 : Bot W) : Prop where
  noLoginCallBack : loginCallBackCalls b1.trace = loginCallBackCalls b.trace
  noHandleLogin : handleLoginCalls b1.trace = handleLoginCalls b.trace
  calls : checkLoginCalls b1.trace = checkLoginCalls b.trace + n
  world : b1.world = w1
  storage : b1.storage = b.storage
  self : b1.self = b.self

/-- The scripted Bot after a fresh login over the world `w`: `LoginWithUUID`
answered at once by Confirmed with body `[9]`. -/
def Script.loggedIn (w : Script) : Bot Script :=
  match LoginWithUUID Script.env "abc123" 1 (NewBot { w with checkLogin := [.ok ⟨"200", [9]⟩] }) with
  | some (_, b) => b
  | none => NewBot w

/-- Number of `SyncCheck` calls recorded in a trace. -/
def syncCheckCalls (tr : List Event) : Nat :=
  (tr.filter fun e => match e with | .syncCheck => true | _ => false).length

/-- The Bot of `Logout` at the moment `Caller.Logout` is called. -/
def loggingOut (b : Bot W) : Bot W :=
  { b with trace := b.trace ++ (if b.LogoutCallBack then [.logoutCallBack] else []) ++ [.callerLogout] }

/-- The handler invocations of a batch: one per record, in order, each on the
record with its back-reference attached; none when no handler is registered. -/
def dispatchTrace (handler : Bool) (ms : List Message) : List Event :=
  if handler then ms.map fun m => .messageHandler m.init else []

/-- The Bot of `HotLogin` once `storage.Load()` has returned nil, leaving the world `wl`. -/
def loadedBot (storage : HotReloadStorage W) (wl : W) (b : Bot W) : Bot W :=
  { b with isHot := true, hotReloadStorage := some storage, world := wl, trace := b.trace ++ [.load] }

/-- Number of QR identifiers requested (`GetLoginUUID` calls) recorded in a trace. -/
def qrRequests (tr : List Event) : Nat :=
  (tr.filter fun e => match e with | .getLoginUUID => true | _ => false).length

/-- A snapshot for the scripted store, with the given cookie entries. -/
def Script.item (cookies : CookieMap) : HotReloadStorageItem :=
  { BaseRequest := some { Uin := 7, Sid := "sid", Skey := "skey", DeviceID := "e111111111111111" },
    Cookies := cookies,
    LoginInfo := some { WxUin := 7, WxSid := "sid", SKey := "skey", PassTicket := "ticket" },
    WechatDomain := "wx.qq.com" }

/-- A cookie entry of a snapshot whose URL parses. -/
def Script.goodCookie : String × List Cookie := ("https://wx.qq.com/", [⟨"webwx_data_ticket", "t"⟩])

/-- A cookie entry of a snapshot whose URL holds the control character DEL, which `url.Parse` rejects. -/
def Script.badCookie : String × List Cookie := (String.singleton (Char.ofNat 127), [])

/-- What a snapshot that has been applied leaves in the Bot `b1`, `b` being the
Bot before: the snapshot's credentials, request context and routing domain,
and in the jar one `SetCookies` call per cookie entry of the snapshot. -/
def SnapshotApplied (env : Env W) (item : HotReloadStorageItem) (b b1 : Bot W) : Prop :=
  b1.storage.LoginInfo = item.LoginInfo ∧ b1.storage.Request = item.BaseRequest ∧
  b1.domain = item.WechatDomain ∧
  ∃ added : List (String × List Cookie), b1.jar = b.jar ++ added ∧
    added.map (fun y => ((Except.ok y.1 : Except GoError String), y.2)) =
      item.Cookies.map (fun x => (env.urlParse x.1, x.2))

/-- Number of `WebWxSync` calls recorded in a trace. -/
def webWxSyncCalls (tr : List Event) : Nat :=
  (tr.filter fun e => match e with | .webWxSync => true | _ => false).length

/-- The cursors written to the store that a trace records, in order. -/
def cursorUpdates (tr : List Event) : List SyncKey :=
  tr.filterMap fun e => match e with | .setSyncKey k => some k | _ => none

/-- The errors handed to the failure handler that a trace records, in order. -/
def handlerCalls (tr : List Event) : List GoError :=
  tr.filterMap fun e => match e with | .errorHandler e => some e | _ => none

/-- The Bot after one cycle of the sync loop: the poll, the fetch answered by
`resp` that leaves the transport in world `w1`, the cursor update and the dispatch. -/
def cycleBot (resp : WebWxSyncResponse) (w1 : W) (b : Bot W) : Bot W :=
  { b with
    world := w1
    storage := { b.storage with
      Response := b.storage.Response.map fun r => { r with SyncKey := resp.SyncKey } }
    trace := b.trace ++ [.syncCheck, .webWxSync, .setSyncKey resp.SyncKey] ++
      dispatchTrace b.MessageHandler resp.AddMsgList }

/-- Starting from the Bot `b`, the transport answers the polls of the sync loop
with "change available" and each fetch that follows with the next response of
`resps`, without a transport error; `b1` is the Bot after these cycles. -/
def SyncCycles (env : Env W) : List WebWxSyncResponse → Bot W → Bot W → Prop
  | [], b, b1 => b1 = b
  | resp :: rest, b, b1 =>
    ∃ (sc : SyncCheckResponse) (w0 w1 : W),
      env.Caller.SyncCheck b.storage.LoginInfo b.storage.Response b.world = (.ok sc, w0) ∧
      env.Success sc = true ∧ env.NorMal sc = false ∧
      env.Caller.WebWxSync b.storage.Request b.storage.Response b.storage.LoginInfo w0 =
        (.ok resp, w1) ∧
      SyncCycles env rest (cycleBot resp w1 b) b1

/-- The first statement of the sync goroutine: install `stopAsyncCALL` when no handler is set. -/
def withHandler (b : Bot W) : Bot W :=
  match b.GetMessageErrorHandler with
  | none => { b with GetMessageErrorHandler := some .stopAsyncCALL }
  | some _ => b

/-- A scripted world for the sync loop: the given polls and fetches. -/
def Script.sync (polls : List (Except GoError SyncCheckResponse))
    (fetches : List (Except GoError WebWxSyncResponse)) : Script :=
  { Script.quiet with syncCheck := polls, webWxSync := fetches }

/-- The cursor `new` is component-wise not older than `old`: for every key they
share, the value in `new` is not smaller. -/
def SyncKey.notOlder (old new : SyncKey) : Bool :=
  old.List.all fun a => new.List.all fun c => a.Key != c.Key || decide (a.Val ≤ c.Val)

/-- The sync cursor held by the store, when the store has a `WebInitResponse`. -/
def Bot.cursor (b : Bot W) : Option SyncKey := b.storage.Response.map fun r => r.SyncKey

/-! ## The cursor in `Client.SyncCheck` (`src/protocol/client.go`) -/

/-- The verb `%d` of `fmt.Sprintf` on an integer: its decimal numeral, with a
leading minus sign when it is negative. -/
def formatInt : Int → String
  | .ofNat n => Nat.repr n
  | .negSucc n => "-" ++ Nat.repr (n + 1)

/-- The string `fmt.Sprintf("%d_%d", item.Key, item.Val)` of line 162. -/
def syncKeyItemString (item : SyncKeyItem) : String :=
  formatInt item.Key ++ "_" ++ formatInt item.Val

/-- The function `strings.Join` of the Go library: nothing for no element, the
element itself for one, and otherwise the first element followed, for each
further element, by the separator and that element. -/
def stringsJoin (elems : List String) (sep : String) : String :=
  match elems with
  | [] => ""
  | [e] => e
  | e :: rest => rest.foldl (fun acc s => acc ++ sep ++ s) e

/-- Lines 159-165 of `Client.SyncCheck`: the slice grown by `append` in the
`range` loop over `response.SyncKey.List`, then joined with `"|"`; the result
is the value of the query parameter `synckey`. -/
def Client.SyncCheck.synckey (key : SyncKey) : String :=
  let syncKeyStringSlice : List String :=
    key.List.foldl (fun slice item => slice ++ [syncKeyItemString item]) []
  stringsJoin syncKeyStringSlice "|"

/-- The serialisation in the words of the specification: the strings `ki_vi`
in list order, a `|` between two neighbours and nowhere else, and the empty
string for the empty list. -/
def specSyncKey : List SyncKeyItem → String
  | [] => ""
  | [x] => formatInt x.Key ++ "_" ++ formatInt x.Val
  | x :: y :: rest => formatInt x.Key ++ "_" ++ formatInt x.Val ++ "|" ++ specSyncKey (y :: rest)

/-- The separator and each further element, as `strings.Join` writes them after the first element. -/
def joinTail (sep : String) : List String → String
  | [] => ""
  | s :: rest => sep ++ s ++ joinTail sep rest

/-! ## Sequences of operations on a Bot -/

/-- Setter `Bot.MessageOnSuccess`. -/
def MessageOnSuccess (b : Bot W) : Bot W := { b with MessageHandler := true }

/-- Setter `Bot.MessageOnError`. -/
def MessageOnError (b : Bot W) : Bot W := { b with GetMessageErrorHandler := some .custom }

/-- An operation that a program holding the Bot, or its sync goroutine, performs on it. -/
inductive Op (W : Type) where
  | LoginWithUUID (uuid : String) (fuel : Nat)
  | Login (fuel : Nat)
  | HotLogin (storage : HotReloadStorage W) (retry : List Bool) (fuel : Nat)
  | HotLoginWithUUID (uuid : String) (storage : HotReloadStorage W) (retry : List Bool) (fuel : Nat)
  | Logout
  | DumpHotReloadStorage
  | syncGoroutine (fuel : Nat)
  | MessageOnSuccess
  | MessageOnError

/-- The Bot after an operation that has returned; `none` when the operation
does not return within its fuel or ends in a panic. -/
def Op.run (env : Env W) (op : Op W) (b : Bot W) : Option (Bot W) :=
  match op with
  | .LoginWithUUID uuid fuel => (WebWechat.LoginWithUUID env uuid fuel b).map fun r => r.2
  | .Login fuel => (WebWechat.Login env fuel b).map fun r => r.2
  | .HotLogin storage retry fuel =>
    match WebWechat.HotLogin env storage retry fuel b with
    | some (.ret _, b1) => some b1
    | _ => none
  | .HotLoginWithUUID uuid storage retry fuel =>
    match WebWechat.HotLoginWithUUID env uuid storage retry fuel b with
    | some (.ret _, b1) => some b1
    | _ => none
  | .Logout => some (WebWechat.Logout env b).2
  | .DumpHotReloadStorage => some (WebWechat.DumpHotReloadStorage env b).2
  | .syncGoroutine fuel =>
    match WebWechat.syncGoroutine env fuel b with
    | some (.ret _, b1) => some b1
    | _ => none
  | .MessageOnSuccess => some (WebWechat.MessageOnSuccess b)
  | .MessageOnError => some (WebWechat.MessageOnError b)

/-- The Bot after a sequence of operations, each started when the one before has returned. -/
def runOps (env : Env W) : List (Op W) → Bot W → Option (Bot W)
  | [], b => some b
  | op :: rest, b =>
    match op.run env b with
    | none => none
    | some b1 => runOps env rest b1

/-- The scripted Bot after a fresh login, with one more Confirmed answer queued for a later login. -/
def Script.relogin : Bot Script :=
  match LoginWithUUID Script.env "abc123" 1
      (NewBot (Script.login [.ok ⟨"200", [9]⟩, .ok ⟨"200", [9]⟩])) with
  | some (_, b) => b
  | none => NewBot Script.quiet

/-! ## Chunked upload in `Client.WebWxUploadMediaByChunk` (`src/protocol/client.go`)

The sizes and indices are `int64` in the source.  Every product the code
forms is at most the file size, so the 64-bit arithmetic does not wrap and
natural numbers model it exactly.  The constant
`chunkSize` is declared outside `src/` and is a parameter.  The writes of the
loop go to a `bytes.Buffer` in memory and do not fail. -/

/-- The events that record the invocation of a callback of the Bot, whichever it is. -/
def Event.isCallback : Event → Bool
  | .uuidCallback _ => true
  | .scanCallBack _ => true
  | .loginCallBack _ => true
  | .logoutCallBack => true
  | .messageHandler _ => true
  | .errorHandler _ => true
  | _ => false

/-- All the callback invocations recorded in a trace, in order. -/
def callbackCalls (tr : List Event) : List Event := tr.filter Event.isCallback

/-! ## The sync loop step by step

`asyncCall` runs on its own goroutine while `Logout` may run on another, and
nothing in `bot.go` synchronises the two.  To speak of a `Logout` that
returns while the loop is between two of its statements, the loop is also
given as a machine over its program points; `asyncCall_run` shows that the
machine run from the loop test computes `asyncCall`. -/

/-- Program points of `asyncCall` (lines 308-325). -/
inductive SyncPc where
  /-- At the loop test `for b.Alive()` of line 308. -/
  | test
  /-- The test has passed; `SyncCheck` of line 310 is not yet called. -/
  | poll
  /-- The call `SyncCheck` has returned `resp` without error; line 315 is next. -/
  | answered (resp : SyncCheckResponse)
  /-- The function `asyncCall` has returned. -/
  | returned (out : Outcome)
  deriving DecidableEq, Repr

/-- One statement of `asyncCall` from a program point. -/
def asyncCall.step (env : Env W) : SyncPc → Bot W → SyncPc × Bot W
  | .test, b => if b.Alive then (.poll, b) else (.returned (.ret none), b)
  | .poll, b =>
    let b := b.emit .syncCheck
    match env.Caller.SyncCheck b.storage.LoginInfo b.storage.Response b.world with
    | (.error e, w) => (.returned (.ret (some e)), { b with world := w })
    | (.ok resp, w) => (.answered resp, { b with world := w })
  | .answered resp, b =>
    if !env.Success resp then (.returned (.ret (some (.syncCheck resp.RetCode resp.Selector))), b)
    else if !env.NorMal resp then
      match getNewWechatMessage env b with
      | (.ret none, b) => (.test, b)
      | (r, b) => (.returned r, b)
    else (.test, b)
  | .returned out, b => (.returned out, b)

/-- At most `n` statements of `asyncCall` from a program point; `none` when it has not returned by then. -/
def asyncCall.run (env : Env W) : Nat → SyncPc → Bot W → Option (Outcome × Bot W)
  | _, .returned out, b => some (out, b)
  | 0, _, _ => none
  | n + 1, pc, b => asyncCall.run env n (asyncCall.step env pc b).1 (asyncCall.step env pc b).2

/-- The Bot `bc` carries the same session as `b`: store, current user, hot
flag, snapshot store and routing domain. -/
def SameSession (b bc : Bot W) : Prop :=
  bc.storage = b.storage ∧ bc.self = b.self ∧ bc.isHot = b.isHot ∧
  bc.hotReloadStorage = b.hotReloadStorage ∧ bc.domain = b.domain

/-- What `WebWxUploadMediaByChunk` uses besides the file: `http.DetectContentType`,
the failure, if any, of `json.Marshal`, and for each chunk but the last whether
the response to it passes `parseBaseResponseError`. -/
structure UploadEnv where
  DetectContentType : Bytes → String
  marshalErr : Option GoError
  accept : Nat → Bool

/-- An upload environment in which nothing fails and every response is accepted. -/
def UploadEnv.quiet : UploadEnv :=
  { DetectContentType := fun _ => "application/octet-stream", marshalErr := none,
    accept := fun _ => true }

/-! ## Lemmas -/

theorem StatusCodes.ne (c : StatusCodes) :
    c.statusSuccess ≠ c.statusScanned ∧ c.statusSuccess ≠ c.statusTimeout ∧
    c.statusSuccess ≠ c.statusWait ∧ c.statusScanned ≠ c.statusTimeout ∧
    c.statusScanned ≠ c.statusWait ∧ c.statusTimeout ≠ c.statusWait := by
  have h := c.distinct
  simp only [List.nodup_cons, List.mem_cons, List.mem_singleton, not_or, List.not_mem_nil,
    not_false_eq_true, List.nodup_nil, and_true] at h
  obtain ⟨⟨h1, h2, h3⟩, ⟨h4, h5⟩, h6⟩ := h
  exact ⟨h1, h2, h3, h4, h5, h6⟩

theorem afterPolls_nil (env : Env W) (uuid : String) (b : Bot W) :
    afterPolls env uuid [] b.world b = b := by
  simp [afterPolls, pollTrace]

/-- One pending answer costs the loop of `LoginWithUUID` one iteration. -/
theorem LoginWithUUID_step (env : Env W) (uuid : String) (r : CheckLoginResponse) (w0 : W)
    (b : Bot W) (fuel : Nat) (hr : Pending env r)
    (hc : env.Caller.CheckLogin uuid b.world = (.ok r, w0)) :
    LoginWithUUID env uuid (fuel + 1) b =
      LoginWithUUID env uuid fuel
        { b with world := w0, trace := b.trace ++ pollEvents env uuid b.ScanCallBack r } := by
  obtain ⟨n1, n2, n3, n4, n5, n6⟩ := env.codes.ne
  rw [LoginWithUUID]
  simp only [Bot.emit, hc]
  rcases hr with h | h
  · have e1 : r.Code ≠ env.codes.statusSuccess := by rw [h]; exact fun x => n3 x.symm
    have e2 : r.Code ≠ env.codes.statusScanned := by rw [h]; exact fun x => n5 x.symm
    have e3 : r.Code ≠ env.codes.statusTimeout := by rw [h]; exact fun x => n6 x.symm
    rw [if_neg e1, if_neg e2, if_neg e3]
    simp [pollEvents, e2]
  · have e1 : r.Code ≠ env.codes.statusSuccess := by rw [h]; exact fun x => n1 x.symm
    rw [if_neg e1, if_pos h]
    cases hs : b.ScanCallBack <;> simp [pollEvents, h, hs]

/-- A run of pending answers costs the loop of `LoginWithUUID` one iteration each. -/
theorem LoginWithUUID_pending (env : Env W) (uuid : String) (pre : List CheckLoginResponse) :
    ∀ (b : Bot W) (w1 : W) (fuel : Nat), (∀ r ∈ pre, Pending env r) →
      Answers env uuid pre b.world w1 →
      LoginWithUUID env uuid (pre.length + fuel) b =
        LoginWithUUID env uuid fuel (afterPolls env uuid pre w1 b) := by
  induction pre with
  | nil =>
    intro b w1 fuel _ ha
    simp only [Answers] at ha
    subst ha
    simp [afterPolls_nil]
  | cons r rs ih =>
    intro b w1 fuel hp ha
    obtain ⟨w0, hc, hrest⟩ := ha
    have hlen : (r :: rs).length + fuel = (rs.length + fuel) + 1 := by simp; omega
    rw [hlen, LoginWithUUID_step env uuid r w0 b _ (hp r (by simp)) hc]
    rw [ih _ w1 fuel (fun x hx => hp x (by simp [hx])) hrest]
    simp [afterPolls, pollTrace, List.append_assoc]

/-- One pending answer costs the loop of `Login` one iteration. -/
theorem Login.loop_step (env : Env W) (uuid : String) (r : CheckLoginResponse) (w0 : W)
    (b : Bot W) (fuel : Nat) (hr : Pending env r)
    (hc : env.Caller.CheckLogin uuid b.world = (.ok r, w0)) :
    Login.loop env uuid (fuel + 1) b =
      Login.loop env uuid fuel
        { b with world := w0, trace := b.trace ++ pollEvents env uuid b.ScanCallBack r } := by
  obtain ⟨n1, n2, n3, n4, n5, n6⟩ := env.codes.ne
  rw [Login.loop]
  simp only [Bot.emit, hc]
  rcases hr with h | h
  · have e1 : r.Code ≠ env.codes.statusSuccess := by rw [h]; exact fun x => n3 x.symm
    have e2 : r.Code ≠ env.codes.statusScanned := by rw [h]; exact fun x => n5 x.symm
    have e3 : r.Code ≠ env.codes.statusTimeout := by rw [h]; exact fun x => n6 x.symm
    rw [if_neg e1, if_neg e2, if_neg e3]
    simp [pollEvents, e2]
  · have e1 : r.Code ≠ env.codes.statusSuccess := by rw [h]; exact fun x => n1 x.symm
    rw [if_neg e1, if_pos h]
    cases hs : b.ScanCallBack <;> simp [pollEvents, h, hs]

/-- A run of pending answers costs the loop of `Login` one iteration each. -/
theorem Login.loop_pending (env : Env W) (uuid : String) (pre : List CheckLoginResponse) :
    ∀ (b : Bot W) (w1 : W) (fuel : Nat), (∀ r ∈ pre, Pending env r) →
      Answers env uuid pre b.world w1 →
      Login.loop env uuid (pre.length + fuel) b =
        Login.loop env uuid fuel (afterPolls env uuid pre w1 b) := by
  induction pre with
  | nil =>
    intro b w1 fuel _ ha
    simp only [Answers] at ha
    subst ha
    simp [afterPolls_nil]
  | cons r rs ih =>
    intro b w1 fuel hp ha
    obtain ⟨w0, hc, hrest⟩ := ha
    have hlen : (r :: rs).length + fuel = (rs.length + fuel) + 1 := by simp; omega
    rw [hlen, Login.loop_step env uuid r w0 b _ (hp r (by simp)) hc]
    rw [ih _ w1 fuel (fun x hx => hp x (by simp [hx])) hrest]
    simp [afterPolls, pollTrace, List.append_assoc]

/-- Splitting the answers of the transport at the end of a list. -/
theorem Answers_append (env : Env W) (uuid : String) (pre : List CheckLoginResponse)
    (post : List CheckLoginResponse) :
    ∀ (w w1 : W), Answers env uuid (pre ++ post) w w1 ↔
      ∃ w0, Answers env uuid pre w w0 ∧ Answers env uuid post w0 w1 := by
  induction pre with
  | nil => intro w w1; simp [Answers]
  | cons r rs ih =>
    intro w w1
    constructor
    · intro h
      change ∃ w0, _ ∧ Answers env uuid (rs ++ post) w0 w1 at h
      obtain ⟨w0, hc, h⟩ := h
      obtain ⟨w2, h1, h2⟩ := (ih w0 w1).1 h
      exact ⟨w2, ⟨w0, hc, h1⟩, h2⟩
    · rintro ⟨w2, ⟨w0, hc, h1⟩, h2⟩
      change ∃ w0, _ ∧ Answers env uuid (rs ++ post) w0 w1
      exact ⟨w0, hc, (ih w0 w1).2 ⟨w2, h1, h2⟩⟩

theorem webInit_trace (env : Env W) (b : Bot W) :
    ∃ evs, (webInit env b).2.trace = b.trace ++ evs ∧ ∀ e ∈ evs, e.establishing = true := by
  unfold webInit
  simp only [Bot.emit]
  split
  · exact ⟨[.webInit], rfl, by simp [Event.establishing]⟩
  · split
    · exact ⟨[.webInit, .statusNotify], by simp, by simp [Event.establishing]⟩
    · exact ⟨[.webInit, .statusNotify, .spawnSync], by simp, by simp [Event.establishing]⟩

theorem DumpHotReloadStorage_trace (env : Env W) (b : Bot W) :
    ∃ evs, (DumpHotReloadStorage env b).2.trace = b.trace ++ evs ∧
      ∀ e ∈ evs, e.establishing = true := by
  unfold DumpHotReloadStorage
  split
  · exact ⟨[], by simp, by simp⟩
  · exact ⟨[.dump], by simp [Bot.emit], by simp [Event.establishing]⟩

theorem handleLogin_trace (env : Env W) (data : Bytes) (b : Bot W) :
    ∃ evs, (handleLogin env data b).2.trace = b.trace ++ .handleLogin data :: evs ∧
      ∀ e ∈ evs, e.establishing = true := by
  unfold handleLogin
  simp only [Bot.emit]
  split
  · exact ⟨[.getLoginInfo data], by simp, by simp [Event.establishing]⟩
  · split
    · split
      · rename_i e b1 hd
        obtain ⟨evs, h1, h2⟩ := DumpHotReloadStorage_trace env _
        rw [hd] at h1
        refine ⟨.getLoginInfo data :: evs, ?_, ?_⟩
        · simpa [List.append_assoc] using h1
        · intro e he
          rcases List.mem_cons.1 he with rfl | he
          · rfl
          · exact h2 e he
      · rename_i b1 hd
        obtain ⟨evs, h1, h2⟩ := DumpHotReloadStorage_trace env _
        rw [hd] at h1
        obtain ⟨evs2, h3, h4⟩ := webInit_trace env b1
        refine ⟨.getLoginInfo data :: (evs ++ evs2), ?_, ?_⟩
        · rw [h3]
          simp only at h1
          rw [h1]
          simp [List.append_assoc]
        · intro e he
          rcases List.mem_cons.1 he with rfl | he
          · rfl
          · rcases List.mem_append.1 he with he | he
            · exact h2 e he
            · exact h4 e he
    · obtain ⟨evs2, h3, h4⟩ := webInit_trace env _
      refine ⟨.getLoginInfo data :: evs2, ?_, ?_⟩
      · rw [h3]
        simp [List.append_assoc]
      · intro e he
        rcases List.mem_cons.1 he with rfl | he
        · rfl
        · exact h4 e he

theorem LoginWithUUID_confirm (env : Env W) (uuid : String) (p : Bytes) (w1 : W) (b : Bot W)
    (fuel : Nat)
    (hc : env.Caller.CheckLogin uuid b.world = (.ok ⟨env.codes.statusSuccess, p⟩, w1)) :
    LoginWithUUID env uuid (fuel + 1) b = some (handleLogin env p (confirmedBot env uuid [] p w1 b)) := by
  rw [LoginWithUUID]
  simp only [Bot.emit, hc, if_true]
  cases hl : b.LoginCallBack <;> simp [confirmedBot, pollTrace, hl]

theorem Login.loop_confirm (env : Env W) (uuid : String) (p : Bytes) (w1 : W) (b : Bot W)
    (fuel : Nat)
    (hc : env.Caller.CheckLogin uuid b.world = (.ok ⟨env.codes.statusSuccess, p⟩, w1)) :
    Login.loop env uuid (fuel + 1) b = some (handleLogin env p (confirmedBot env uuid [] p w1 b)) := by
  rw [Login.loop]
  simp only [Bot.emit, hc, if_true]
  cases hl : b.LoginCallBack <;> simp [confirmedBot, pollTrace, hl]

theorem confirmedBot_afterPolls (env : Env W) (uuid : String) (pre : List CheckLoginResponse)
    (p : Bytes) (w0 w1 : W) (b : Bot W) :
    confirmedBot env uuid [] p w1 (afterPolls env uuid pre w0 b) = confirmedBot env uuid pre p w1 b := by
  simp [confirmedBot, afterPolls, pollTrace, List.append_assoc]

/-- Pending answers followed by Confirmed: both loops hand the payload to `handleLogin`. -/
theorem login_reaches_handleLogin (env : Env W) (uuid : String) (pre : List CheckLoginResponse)
    (p : Bytes) (b : Bot W) (w1 : W) (hp : ∀ r ∈ pre, Pending env r)
    (ha : Answers env uuid (pre ++ [⟨env.codes.statusSuccess, p⟩]) b.world w1) (fuel : Nat)
    (hf : pre.length + 1 ≤ fuel) :
    LoginWithUUID env uuid fuel b = some (handleLogin env p (confirmedBot env uuid pre p w1 b)) ∧
    Login.loop env uuid fuel b = some (handleLogin env p (confirmedBot env uuid pre p w1 b)) := by
  obtain ⟨w0, h1, h2⟩ := (Answers_append env uuid pre _ b.world w1).1 ha
  obtain ⟨w2, hc, h3⟩ := h2
  simp only [Answers] at h3
  subst h3
  obtain ⟨k, rfl⟩ : ∃ k, fuel = pre.length + (k + 1) := ⟨fuel - (pre.length + 1), by omega⟩
  have hc2 : env.Caller.CheckLogin uuid (afterPolls env uuid pre w0 b).world =
      (.ok ⟨env.codes.statusSuccess, p⟩, w1) := hc
  constructor
  · rw [LoginWithUUID_pending env uuid pre b w0 _ hp h1,
      LoginWithUUID_confirm env uuid p w1 _ k hc2, confirmedBot_afterPolls]
  · rw [Login.loop_pending env uuid pre b w0 _ hp h1,
      Login.loop_confirm env uuid p w1 _ k hc2, confirmedBot_afterPolls]

theorem webInit_LoginInfo (env : Env W) (b : Bot W) :
    (webInit env b).2.storage.LoginInfo = b.storage.LoginInfo := by
  unfold webInit
  simp only [Bot.emit]
  split
  · rfl
  · split <;> rfl

theorem DumpHotReloadStorage_storage (env : Env W) (b : Bot W) :
    (DumpHotReloadStorage env b).2.storage = b.storage := by
  unfold DumpHotReloadStorage
  split <;> rfl

theorem handleLogin_storage_LoginInfo (env : Env W) (data : Bytes) (b : Bot W) (info : LoginInfo)
    (w : W) (hg : env.Caller.GetLoginInfo data b.world = (.ok info, w)) :
    (handleLogin env data b).2.storage.LoginInfo = some info := by
  unfold handleLogin
  simp only [Bot.emit, hg]
  split
  · split
    · rename_i e b1 hd
      have h := congrArg (fun x => x.2.storage.LoginInfo) hd
      simp only [DumpHotReloadStorage_storage] at h
      exact h.symm
    · rename_i b1 hd
      have h := congrArg (fun x => x.2.storage.LoginInfo) hd
      simp only [DumpHotReloadStorage_storage] at h
      rw [webInit_LoginInfo]
      exact h.symm
  · rw [webInit_LoginInfo]

/-- When `handleLogin` returns nil, the stored credentials are those that
`Caller.GetLoginInfo` extracted from the payload. -/
theorem handleLogin_LoginInfo (env : Env W) (data : Bytes) (b : Bot W)
    (hok : (handleLogin env data b).1 = none) :
    ∃ info w2, env.Caller.GetLoginInfo data b.world = (.ok info, w2) ∧
      (handleLogin env data b).2.storage.LoginInfo = some info := by
  rcases hg : env.Caller.GetLoginInfo data b.world with ⟨r, w⟩
  cases r with
  | error e =>
    have h2 : (handleLogin env data b).1 = some e := by
      unfold handleLogin
      simp only [Bot.emit, hg]
    rw [h2] at hok
    cases hok
  | ok info => exact ⟨info, w, rfl, handleLogin_storage_LoginInfo env data b info w hg⟩

theorem checkLoginCalls_append (a c : List Event) :
    checkLoginCalls (a ++ c) = checkLoginCalls a + checkLoginCalls c := by
  simp [checkLoginCalls]

theorem handleLoginCalls_append (a c : List Event) :
    handleLoginCalls (a ++ c) = handleLoginCalls a + handleLoginCalls c := by
  simp [handleLoginCalls]

theorem loginCallbacks_append (a c : List Event) :
    loginCallbacks (a ++ c) = loginCallbacks a ++ loginCallbacks c := by
  simp [loginCallbacks]

theorem checkLoginCalls_pollTrace (env : Env W) (uuid : String) (scan : Bool)
    (pre : List CheckLoginResponse) : checkLoginCalls (pollTrace env uuid scan pre) = pre.length := by
  induction pre with
  | nil => rfl
  | cons r rs ih =>
    rw [pollTrace, checkLoginCalls_append, ih, pollEvents]
    split <;> simp [checkLoginCalls] <;> omega

theorem handleLoginCalls_pollTrace (env : Env W) (uuid : String) (scan : Bool)
    (pre : List CheckLoginResponse) : handleLoginCalls (pollTrace env uuid scan pre) = 0 := by
  induction pre with
  | nil => rfl
  | cons r rs ih =>
    rw [pollTrace, handleLoginCalls_append, ih, pollEvents]
    split <;> simp [handleLoginCalls]

theorem loginCallbacks_pollTrace (env : Env W) (uuid : String) (pre : List CheckLoginResponse) :
    loginCallbacks (pollTrace env uuid true pre) = scanCalls env pre := by
  induction pre with
  | nil => rfl
  | cons r rs ih =>
    rw [pollTrace, loginCallbacks_append, ih, pollEvents]
    by_cases h : r.Code = env.codes.statusScanned
    · simp [h, loginCallbacks, scanCalls]
    · simp [h, loginCallbacks, scanCalls]

theorem loginCallbacks_pollTrace_off (env : Env W) (uuid : String)
    (pre : List CheckLoginResponse) : loginCallbacks (pollTrace env uuid false pre) = [] := by
  induction pre with
  | nil => rfl
  | cons r rs ih =>
    rw [pollTrace, loginCallbacks_append, ih, pollEvents]
    simp [loginCallbacks]

theorem checkLoginCalls_establishing (evs : List Event) (h : ∀ e ∈ evs, e.establishing = true) :
    checkLoginCalls evs = 0 := by
  simp only [checkLoginCalls, List.length_eq_zero, List.filter_eq_nil_iff]
  intro e he
  have := h e he
  cases e <;> simp_all [Event.establishing]

theorem loginCallbacks_establishing (evs : List Event) (h : ∀ e ∈ evs, e.establishing = true) :
    loginCallbacks evs = [] := by
  simp only [loginCallbacks, List.filter_eq_nil_iff]
  intro e he
  have := h e he
  cases e <;> simp_all [Event.establishing]

/-- The function `handleLogin` issues no `CheckLogin` call. -/
theorem handleLogin_checkLoginCalls (env : Env W) (data : Bytes) (b : Bot W) :
    checkLoginCalls (handleLogin env data b).2.trace = checkLoginCalls b.trace := by
  obtain ⟨evs, h1, h2⟩ := handleLogin_trace env data b
  rw [h1, checkLoginCalls_append]
  have : checkLoginCalls (Event.handleLogin data :: evs) = checkLoginCalls evs := by
    simp [checkLoginCalls]
  rw [this, checkLoginCalls_establishing evs h2]
  rfl

/-- The function `handleLogin` invokes neither the scan nor the login callback. -/
theorem handleLogin_loginCallbacks (env : Env W) (data : Bytes) (b : Bot W) :
    loginCallbacks (handleLogin env data b).2.trace = loginCallbacks b.trace := by
  obtain ⟨evs, h1, h2⟩ := handleLogin_trace env data b
  rw [h1, loginCallbacks_append]
  have : loginCallbacks (Event.handleLogin data :: evs) = loginCallbacks evs := by
    simp [loginCallbacks]
  rw [this, loginCallbacks_establishing evs h2]
  simp

theorem Pending_of_wait (env : Env W) (rs : List CheckLoginResponse)
    (h : ∀ r ∈ rs, r.Code = env.codes.statusWait) : ∀ r ∈ rs, Pending env r :=
  fun r hr => Or.inl (h r hr)

/-- C1: if the transport answers `CheckLogin` with `n` Waiting responses and
then one Confirmed response with raw body `p`, and `handleLogin` (credential
extraction and session establishment) returns nil on the Bot it is then called
on, then with enough fuel `LoginWithUUID` and the polling loop of `Login`
return nil, have issued exactly `n + 1` `CheckLogin` calls, and leave
`storage.LoginInfo` equal to the credentials `Caller.GetLoginInfo` extracted
from `p`. -/
theorem C1_waiting_then_confirmed (env : Env W) (uuid : String)
    (waits : List CheckLoginResponse) (p : Bytes) (b : Bot W) (w1 : W)
    (hw : ∀ r ∈ waits, r.Code = env.codes.statusWait)
    (ha : Answers env uuid (waits ++ [⟨env.codes.statusSuccess, p⟩]) b.world w1)
    (hok : (handleLogin env p (confirmedBot env uuid waits p w1 b)).1 = none)
    (fuel : Nat) (hf : waits.length + 1 ≤ fuel) :
    ∃ b1 : Bot W,
      LoginWithUUID env uuid fuel b = some (none, b1) ∧
      Login.loop env uuid fuel b = some (none, b1) ∧
      checkLoginCalls b1.trace = checkLoginCalls b.trace + (waits.length + 1) ∧
      ∃ info w2, env.Caller.GetLoginInfo p w1 = (.ok info, w2) ∧
        b1.storage.LoginInfo = some info := by
  obtain ⟨h1, h2⟩ :=
    login_reaches_handleLogin env uuid waits p b w1 (Pending_of_wait env waits hw) ha fuel hf
  refine ⟨(handleLogin env p (confirmedBot env uuid waits p w1 b)).2, ?_, ?_, ?_, ?_⟩
  · rw [h1, ← hok]
  · rw [h2, ← hok]
  · rw [handleLogin_checkLoginCalls]
    simp only [confirmedBot, checkLoginCalls_append, checkLoginCalls_pollTrace]
    have : checkLoginCalls (Event.checkLogin uuid ::
        (if b.LoginCallBack = true then [Event.loginCallBack p] else [])) = 1 := by
      split <;> simp [checkLoginCalls]
    rw [this]
    omega
  · exact handleLogin_LoginInfo env p _ hok

/-- Witness of C1: two Waiting answers, then Confirmed with body `[9]`, on the scripted transport. -/
theorem C1_waiting_then_confirmed_witness :
    ∃ b1 : Bot Script,
      LoginWithUUID Script.env "abc123" 3
        (Script.bot (Script.login [.ok ⟨"408", []⟩, .ok ⟨"408", []⟩, .ok ⟨"200", [9]⟩]) false) = some (none, b1) ∧
      Login.loop Script.env "abc123" 3
        (Script.bot (Script.login [.ok ⟨"408", []⟩, .ok ⟨"408", []⟩, .ok ⟨"200", [9]⟩]) false) = some (none, b1) ∧
      checkLoginCalls b1.trace = checkLoginCalls ([] : List Event) + (2 + 1) ∧
      ∃ info w2, Script.env.Caller.GetLoginInfo [9] Script.quiet = (.ok info, w2) ∧
        b1.storage.LoginInfo = some info :=
  C1_waiting_then_confirmed Script.env "abc123" [⟨"408", []⟩, ⟨"408", []⟩] [9]
    (Script.bot (Script.login [.ok ⟨"408", []⟩, .ok ⟨"408", []⟩, .ok ⟨"200", [9]⟩]) false)
    Script.quiet (by decide) ⟨_, rfl, _, rfl, _, rfl, rfl⟩ (by decide) 3 (by decide)

theorem loginCallBackCalls_append (a c : List Event) :
    loginCallBackCalls (a ++ c) = loginCallBackCalls a + loginCallBackCalls c := by
  simp [loginCallBackCalls]

theorem loginCallBackCalls_pollTrace (env : Env W) (uuid : String) (scan : Bool)
    (pre : List CheckLoginResponse) : loginCallBackCalls (pollTrace env uuid scan pre) = 0 := by
  induction pre with
  | nil => rfl
  | cons r rs ih =>
    rw [pollTrace, loginCallBackCalls_append, ih, pollEvents]
    split <;> simp [loginCallBackCalls]

theorem stoppedBot_spec (env : Env W) (uuid : String) (pre : List CheckLoginResponse) (w1 : W)
    (b : Bot W) : StoppedAfter (pre.length + 1) w1 b (stoppedBot env uuid pre w1 b) where
  noLoginCallBack := by
    simp [stoppedBot, loginCallBackCalls_append, loginCallBackCalls_pollTrace]
    simp [loginCallBackCalls]
  noHandleLogin := by
    simp [stoppedBot, handleLoginCalls_append, handleLoginCalls_pollTrace]
    simp [handleLoginCalls]
  calls := by
    simp only [stoppedBot, checkLoginCalls_append, checkLoginCalls_pollTrace]
    simp [checkLoginCalls]
    omega
  world := rfl
  storage := rfl
  self := rfl

theorem issuedBot_stopped (uuid : String) (wu : W) (b b1 : Bot W) (n : Nat) (w1 : W)
    (h : StoppedAfter n w1 (issuedBot uuid wu b) b1) : StoppedAfter n w1 b b1 where
  noLoginCallBack := by
    rw [h.noLoginCallBack]
    simp only [issuedBot, loginCallBackCalls_append]
    split <;> simp [loginCallBackCalls]
  noHandleLogin := by
    rw [h.noHandleLogin]
    simp only [issuedBot, handleLoginCalls_append]
    split <;> simp [handleLoginCalls]
  calls := by
    rw [h.calls]
    simp only [issuedBot, checkLoginCalls_append]
    split <;> simp [checkLoginCalls]
  world := h.world
  storage := h.storage
  self := h.self

theorem Login_issued (env : Env W) (uuid : String) (wu : W) (b : Bot W) (fuel : Nat)
    (hu : env.Caller.GetLoginUUID b.world = (.ok uuid, wu)) :
    Login env fuel b = Login.loop env uuid fuel (issuedBot uuid wu b) := by
  unfold Login
  simp only [Bot.emit, hu]
  cases hc : b.UUIDCallback <;> simp [issuedBot, hc]

theorem LoginWithUUID_timeout (env : Env W) (uuid : String) (r : CheckLoginResponse) (w1 : W)
    (b : Bot W) (fuel : Nat) (hr : r.Code = env.codes.statusTimeout)
    (hc : env.Caller.CheckLogin uuid b.world = (.ok r, w1)) :
    LoginWithUUID env uuid (fuel + 1) b =
      some (some (.errorsNew "login timeout"), stoppedBot env uuid [] w1 b) := by
  obtain ⟨n1, n2, n3, n4, n5, n6⟩ := env.codes.ne
  have e1 : r.Code ≠ env.codes.statusSuccess := by rw [hr]; exact fun x => n2 x.symm
  have e2 : r.Code ≠ env.codes.statusScanned := by rw [hr]; exact fun x => n4 x.symm
  rw [LoginWithUUID]
  simp only [Bot.emit, hc]
  rw [if_neg e1, if_neg e2, if_pos hr]
  simp [stoppedBot, pollTrace]

theorem Login.loop_timeout (env : Env W) (uuid : String) (r : CheckLoginResponse) (w1 : W)
    (b : Bot W) (fuel : Nat) (hr : r.Code = env.codes.statusTimeout)
    (hc : env.Caller.CheckLogin uuid b.world = (.ok r, w1)) :
    Login.loop env uuid (fuel + 1) b =
      some (some (.errorsNew "login time out"), stoppedBot env uuid [] w1 b) := by
  obtain ⟨n1, n2, n3, n4, n5, n6⟩ := env.codes.ne
  have e1 : r.Code ≠ env.codes.statusSuccess := by rw [hr]; exact fun x => n2 x.symm
  have e2 : r.Code ≠ env.codes.statusScanned := by rw [hr]; exact fun x => n4 x.symm
  rw [Login.loop]
  simp only [Bot.emit, hc]
  rw [if_neg e1, if_neg e2, if_pos hr]
  simp [stoppedBot, pollTrace]

theorem LoginWithUUID_error (env : Env W) (uuid : String) (e : GoError) (w1 : W)
    (b : Bot W) (fuel : Nat) (hc : env.Caller.CheckLogin uuid b.world = (.error e, w1)) :
    LoginWithUUID env uuid (fuel + 1) b = some (some e, stoppedBot env uuid [] w1 b) := by
  rw [LoginWithUUID]
  simp only [Bot.emit, hc]
  simp [stoppedBot, pollTrace]

theorem Login.loop_error (env : Env W) (uuid : String) (e : GoError) (w1 : W)
    (b : Bot W) (fuel : Nat) (hc : env.Caller.CheckLogin uuid b.world = (.error e, w1)) :
    Login.loop env uuid (fuel + 1) b = some (some e, stoppedBot env uuid [] w1 b) := by
  rw [Login.loop]
  simp only [Bot.emit, hc]
  simp [stoppedBot, pollTrace]

theorem stoppedBot_afterPolls (env : Env W) (uuid : String) (pre : List CheckLoginResponse)
    (w0 w1 : W) (b : Bot W) :
    stoppedBot env uuid [] w1 (afterPolls env uuid pre w0 b) = stoppedBot env uuid pre w1 b := by
  simp [stoppedBot, afterPolls, pollTrace, List.append_assoc]

/-- Pending answers followed by Expired: both loops return their expiry error. -/
theorem login_expires (env : Env W) (uuid : String) (pre : List CheckLoginResponse)
    (r : CheckLoginResponse) (b : Bot W) (w1 : W) (hp : ∀ x ∈ pre, Pending env x)
    (hr : r.Code = env.codes.statusTimeout)
    (ha : Answers env uuid (pre ++ [r]) b.world w1) (fuel : Nat) (hf : pre.length + 1 ≤ fuel) :
    LoginWithUUID env uuid fuel b =
      some (some (.errorsNew "login timeout"), stoppedBot env uuid pre w1 b) ∧
    Login.loop env uuid fuel b =
      some (some (.errorsNew "login time out"), stoppedBot env uuid pre w1 b) := by
  obtain ⟨w0, h1, h2⟩ := (Answers_append env uuid pre _ b.world w1).1 ha
  obtain ⟨w2, hc, h3⟩ := h2
  simp only [Answers] at h3
  subst h3
  obtain ⟨k, rfl⟩ : ∃ k, fuel = pre.length + (k + 1) := ⟨fuel - (pre.length + 1), by omega⟩
  have hc2 : env.Caller.CheckLogin uuid (afterPolls env uuid pre w0 b).world = (.ok r, w1) := hc
  constructor
  · rw [LoginWithUUID_pending env uuid pre b w0 _ hp h1,
      LoginWithUUID_timeout env uuid r w1 _ k hr hc2, stoppedBot_afterPolls]
  · rw [Login.loop_pending env uuid pre b w0 _ hp h1,
      Login.loop_timeout env uuid r w1 _ k hr hc2, stoppedBot_afterPolls]

/-- C2: when the answers to `CheckLogin` are Waiting or Scanned until one is
Expired, `LoginWithUUID` and `Login` (once `GetLoginUUID` has answered) return
their non-nil expiry error, and the run has invoked no `LoginCallBack`, has not
entered `handleLogin`, and has issued no transport call after the Expired
answer: exactly one `CheckLogin` call per answer, the transport left in the
world of the Expired answer. -/
theorem C2_expired_before_confirmed (env : Env W) (uuid : String)
    (pre : List CheckLoginResponse) (r : CheckLoginResponse)
    (hp : ∀ x ∈ pre, Pending env x) (hr : r.Code = env.codes.statusTimeout)
    (fuel : Nat) (hf : pre.length + 1 ≤ fuel) :
    (∀ (b : Bot W) (w1 : W), Answers env uuid (pre ++ [r]) b.world w1 →
      ∃ b1, LoginWithUUID env uuid fuel b = some (some (.errorsNew "login timeout"), b1) ∧
        StoppedAfter (pre.length + 1) w1 b b1) ∧
    (∀ (b : Bot W) (wu w1 : W), env.Caller.GetLoginUUID b.world = (.ok uuid, wu) →
      Answers env uuid (pre ++ [r]) wu w1 →
      ∃ b1, Login env fuel b = some (some (.errorsNew "login time out"), b1) ∧
        StoppedAfter (pre.length + 1) w1 b b1) := by
  constructor
  · intro b w1 ha
    exact ⟨_, (login_expires env uuid pre r b w1 hp hr ha fuel hf).1, stoppedBot_spec env uuid pre w1 b⟩
  · intro b wu w1 hu ha
    refine ⟨_, ?_, issuedBot_stopped uuid wu b _ _ w1 (stoppedBot_spec env uuid pre w1 _)⟩
    rw [Login_issued env uuid wu b fuel hu]
    exact (login_expires env uuid pre r (issuedBot uuid wu b) w1 hp hr ha fuel hf).2

/-- Witness of C2: Waiting, Scanned, Expired on the scripted transport. -/
theorem C2_expired_before_confirmed_witness :
    (∃ b1, LoginWithUUID Script.env "abc123" 3
        (Script.bot (Script.login [.ok ⟨"408", []⟩, .ok ⟨"201", [1]⟩, .ok ⟨"400", []⟩]) false) =
          some (some (.errorsNew "login timeout"), b1) ∧
        StoppedAfter 3 Script.quiet
          (Script.bot (Script.login [.ok ⟨"408", []⟩, .ok ⟨"201", [1]⟩, .ok ⟨"400", []⟩]) false) b1) ∧
    (∃ b1, Login Script.env 3
        (Script.bot (Script.login [.ok ⟨"408", []⟩, .ok ⟨"201", [1]⟩, .ok ⟨"400", []⟩]) false) =
          some (some (.errorsNew "login time out"), b1) ∧
        StoppedAfter 3 Script.quiet
          (Script.bot (Script.login [.ok ⟨"408", []⟩, .ok ⟨"201", [1]⟩, .ok ⟨"400", []⟩]) false) b1) :=
  ⟨(C2_expired_before_confirmed Script.env "abc123" [⟨"408", []⟩, ⟨"201", [1]⟩] ⟨"400", []⟩
      (by simp [Pending, Script.env, Script.codes]) rfl 3 (by decide)).1
      (Script.bot (Script.login [.ok ⟨"408", []⟩, .ok ⟨"201", [1]⟩, .ok ⟨"400", []⟩]) false)
      Script.quiet ⟨_, rfl, _, rfl, _, rfl, rfl⟩,
   (C2_expired_before_confirmed Script.env "abc123" [⟨"408", []⟩, ⟨"201", [1]⟩] ⟨"400", []⟩
      (by simp [Pending, Script.env, Script.codes]) rfl 3 (by decide)).2
      (Script.bot (Script.login [.ok ⟨"408", []⟩, .ok ⟨"201", [1]⟩, .ok ⟨"400", []⟩]) false)
      _ Script.quiet rfl ⟨_, rfl, _, rfl, _, rfl, rfl⟩⟩

/-- C4: when the first `k - 1` answers to `CheckLogin` are Waiting or Scanned
and the `k`-th call returns the transport error `e`, `LoginWithUUID` (and the
loop of `Login`) returns exactly `e` after exactly `k` calls, without
`LoginCallBack` and without `handleLogin`, and leaves the session store and
the current user as they were. -/
theorem C4_transport_error (env : Env W) (uuid : String) (pre : List CheckLoginResponse)
    (e : GoError) (b : Bot W) (w0 w1 : W)
    (hp : ∀ r ∈ pre, Pending env r)
    (ha : Answers env uuid pre b.world w0)
    (hc : env.Caller.CheckLogin uuid w0 = (.error e, w1))
    (fuel : Nat) (hf : pre.length + 1 ≤ fuel) :
    ∃ b1 : Bot W,
      LoginWithUUID env uuid fuel b = some (some e, b1) ∧
      Login.loop env uuid fuel b = some (some e, b1) ∧
      StoppedAfter (pre.length + 1) w1 b b1 := by
  obtain ⟨k, rfl⟩ : ∃ k, fuel = pre.length + (k + 1) := ⟨fuel - (pre.length + 1), by omega⟩
  have hc2 : env.Caller.CheckLogin uuid (afterPolls env uuid pre w0 b).world = (.error e, w1) := hc
  refine ⟨stoppedBot env uuid pre w1 b, ?_, ?_, stoppedBot_spec env uuid pre w1 b⟩
  · rw [LoginWithUUID_pending env uuid pre b w0 _ hp ha,
      LoginWithUUID_error env uuid e w1 _ k hc2, stoppedBot_afterPolls]
  · rw [Login.loop_pending env uuid pre b w0 _ hp ha,
      Login.loop_error env uuid e w1 _ k hc2, stoppedBot_afterPolls]

/-- Witness of C4: Waiting, Scanned, then the transport error `external 5`. -/
theorem C4_transport_error_witness :
    ∃ b1 : Bot Script,
      LoginWithUUID Script.env "abc123" 3
        (Script.bot (Script.login [.ok ⟨"408", []⟩, .ok ⟨"201", [1]⟩, .error (.external 5)]) false) =
          some (some (.external 5), b1) ∧
      Login.loop Script.env "abc123" 3
        (Script.bot (Script.login [.ok ⟨"408", []⟩, .ok ⟨"201", [1]⟩, .error (.external 5)]) false) =
          some (some (.external 5), b1) ∧
      StoppedAfter 3 Script.quiet
        (Script.bot (Script.login [.ok ⟨"408", []⟩, .ok ⟨"201", [1]⟩, .error (.external 5)]) false) b1 :=
  C4_transport_error Script.env "abc123" [⟨"408", []⟩, ⟨"201", [1]⟩] (.external 5)
    (Script.bot (Script.login [.ok ⟨"408", []⟩, .ok ⟨"201", [1]⟩, .error (.external 5)]) false)
    (Script.login [.error (.external 5)]) Script.quiet
    (by simp [Pending, Script.env, Script.codes]) ⟨_, rfl, _, rfl, rfl⟩ rfl 3 (by decide)

theorem stopAsyncCALL_Alive (e : GoError) (b : Bot W) : (stopAsyncCALL e b).Alive = false := rfl

theorem Alive_iff (b : Bot W) : b.Alive = true ↔ b.self.isSome = true ∧ b.done = false := by
  unfold Bot.Alive
  cases b.self <;> cases b.done <;> simp

theorem Logout_ok (env : Env W) (b : Bot W) (w : W) (halive : b.Alive = true)
    (hw : env.Caller.Logout b.storage.LoginInfo b.world = (none, w)) :
    Logout env b = (none, stopAsyncCALL (.errorsNew "logout") { loggingOut b with world := w }) := by
  unfold Logout
  rw [if_pos halive]
  simp only [Bot.emit]
  cases hcb : b.LogoutCallBack <;> simp [hw, hcb, loggingOut]

theorem Logout_error (env : Env W) (b : Bot W) (e : GoError) (w : W) (halive : b.Alive = true)
    (hw : env.Caller.Logout b.storage.LoginInfo b.world = (some e, w)) :
    Logout env b = (some e, { loggingOut b with world := w }) := by
  unfold Logout
  rw [if_pos halive]
  simp only [Bot.emit]
  cases hcb : b.LogoutCallBack <;> simp [hw, hcb, loggingOut]

/-- C5, as the code has it: a Bot that is alive whose server-side logout call
fails with `e`.  `Logout` returns `e` and the Bot is still alive, its context
not cancelled. -/
theorem C5_logout_error_stays_alive :
    (Script.loggedIn { Script.quiet with logout := some (.external 3) }).Alive = true ∧
    (Logout Script.env (Script.loggedIn { Script.quiet with logout := some (.external 3) })).1 =
      some (.external 3) ∧
    (Logout Script.env (Script.loggedIn { Script.quiet with logout := some (.external 3) })).2.Alive =
      true ∧
    (Logout Script.env (Script.loggedIn { Script.quiet with logout := some (.external 3) })).2.done =
      false := by
  decide

/-- C5 amended: for every alive Bot, when the server-side `Caller.Logout` call
succeeds, `Logout` returns nil, and afterwards `Alive()` is false and the
context is cancelled; when `Caller.Logout` returns the error `e`, `Logout`
returns `e` and leaves the Bot alive, its context not cancelled. -/
theorem C5_logout_alive (env : Env W) (b : Bot W) (halive : b.Alive = true) :
    (∀ w, env.Caller.Logout b.storage.LoginInfo b.world = (none, w) →
      (Logout env b).1 = none ∧ (Logout env b).2.Alive = false ∧ (Logout env b).2.done = true) ∧
    (∀ e w, env.Caller.Logout b.storage.LoginInfo b.world = (some e, w) →
      (Logout env b).1 = some e ∧ (Logout env b).2.Alive = true ∧ (Logout env b).2.done = false) := by
  constructor
  · intro w hw
    rw [Logout_ok env b w halive hw]
    exact ⟨rfl, rfl, rfl⟩
  · intro e w hw
    rw [Logout_error env b e w halive hw]
    obtain ⟨h1, h2⟩ := (Alive_iff b).1 halive
    refine ⟨rfl, ?_, h2⟩
    exact (Alive_iff _).2 ⟨h1, h2⟩

/-- Witness of C5 amended: a logged-in scripted Bot whose logout call succeeds. -/
theorem C5_logout_alive_witness :
    (Logout Script.env (Script.loggedIn Script.quiet)).1 = none ∧
    (Logout Script.env (Script.loggedIn Script.quiet)).2.Alive = false ∧
    (Logout Script.env (Script.loggedIn Script.quiet)).2.done = true :=
  (C5_logout_alive Script.env (Script.loggedIn Script.quiet) (by decide)).1
    (Script.loggedIn Script.quiet).world rfl

theorem dispatch_eq (ms : List Message) :
    ∀ b : Bot W, getNewWechatMessage.dispatch ms b =
      { b with trace := b.trace ++ dispatchTrace b.MessageHandler ms } := by
  induction ms with
  | nil => intro b; simp [getNewWechatMessage.dispatch, dispatchTrace]
  | cons m rest ih =>
    intro b
    rw [getNewWechatMessage.dispatch, ih]
    cases h : b.MessageHandler <;> simp [dispatchTrace, h, Bot.emit]

theorem asyncCall_not_alive (env : Env W) (fuel : Nat) (b : Bot W) (h : b.Alive = false) :
    asyncCall env fuel b = some (.ret none, b) := by
  unfold asyncCall
  simp [h]

theorem getNewWechatMessage_Alive (env : Env W) (b : Bot W) :
    (getNewWechatMessage env b).2.Alive = b.Alive := by
  unfold getNewWechatMessage
  simp only [Bot.emit]
  split
  · rfl
  · split
    · rfl
    · rw [dispatch_eq]
      rfl

theorem syncCheckCalls_append (a c : List Event) :
    syncCheckCalls (a ++ c) = syncCheckCalls a + syncCheckCalls c := by
  simp [syncCheckCalls]

theorem syncCheckCalls_dispatchTrace (handler : Bool) (ms : List Message) :
    syncCheckCalls (dispatchTrace handler ms) = 0 := by
  cases handler
  · rfl
  · simp only [dispatchTrace, syncCheckCalls, List.length_eq_zero, List.filter_eq_nil_iff, if_true]
    intro e he
    obtain ⟨m, _, rfl⟩ := List.mem_map.1 he
    simp

theorem getNewWechatMessage_syncCheckCalls (env : Env W) (b : Bot W) :
    syncCheckCalls (getNewWechatMessage env b).2.trace = syncCheckCalls b.trace := by
  unfold getNewWechatMessage
  simp only [Bot.emit]
  split
  · simp [syncCheckCalls]
  · split
    · simp [syncCheckCalls]
    · rw [dispatch_eq]
      simp only [syncCheckCalls_append, syncCheckCalls_dispatchTrace]
      simp [syncCheckCalls]

/-- C7, as the code has it: a logged-in scripted Bot whose first `SyncCheck`
fails with the transport error `external 4`.  The sync goroutine hands the
error to the default handler `stopAsyncCALL`; `Block`, called while the Bot
was logged in, then returns nil although no `Logout` took place, and the
error is found in `CrashReason`. -/
theorem C7_block_returns_nil_after_sync_failure :
    (Script.loggedIn { Script.quiet with syncCheck := [.error (.external 4)] }).Alive = true ∧
    (syncGoroutine Script.env 1
        (Script.loggedIn { Script.quiet with syncCheck := [.error (.external 4)] })).map
      (fun r => (r.2.done, r.2.trace.contains .callerLogout, r.2.CrashReason,
        Block (Script.loggedIn { Script.quiet with syncCheck := [.error (.external 4)] }) r.2)) =
      some (true, false, some (.external 4), some none) := by
  decide

/-- C7 amended: for a Bot that is logged in when `Block` is called, `Block`
waits while the context is not cancelled and returns nil once it is
cancelled, whatever ended the session; the terminal error `e` captured by the
failure handler `stopAsyncCALL(e)` is kept in the Bot and returned by
`CrashReason()`, and after an explicit `Logout` that error is
`errors.New("logout")`. -/
theorem C7_block_returns_nil (atCall : Bot W) (hs : atCall.self.isSome = true) :
    (∀ later : Bot W, later.done = false → Block atCall later = none) ∧
    (∀ later : Bot W, later.done = true → Block atCall later = some none) ∧
    (∀ (e : GoError) (b : Bot W), Block atCall (stopAsyncCALL e b) = some none ∧
      (stopAsyncCALL e b).CrashReason = some e) ∧
    (∀ (env : Env W) (b : Bot W) (w : W), b.Alive = true →
      env.Caller.Logout b.storage.LoginInfo b.world = (none, w) →
      Block atCall (Logout env b).2 = some none ∧
      (Logout env b).2.CrashReason = some (.errorsNew "logout")) := by
  obtain ⟨s, hs⟩ := Option.isSome_iff_exists.1 hs
  refine ⟨?_, ?_, ?_, ?_⟩
  · intro later h
    simp [Block, hs, h]
  · intro later h
    simp [Block, hs, h]
  · intro e b
    simp [Block, hs, stopAsyncCALL, Bot.CrashReason]
  · intro env b w halive hw
    rw [Logout_ok env b w halive hw]
    simp [Block, hs, stopAsyncCALL, Bot.CrashReason]

/-- Witness of C7 amended: `Block` called on a logged-in scripted Bot, observed after a teardown. -/
theorem C7_block_returns_nil_witness :
    Block (Script.loggedIn Script.quiet)
        (stopAsyncCALL (.external 4) (Script.loggedIn Script.quiet)) = some none ∧
      (stopAsyncCALL (.external 4) (Script.loggedIn Script.quiet)).CrashReason =
        some (.external 4) :=
  (C7_block_returns_nil (Script.loggedIn Script.quiet) (by decide)).2.2.1 (.external 4)
    (Script.loggedIn Script.quiet)

/-- C10: for every successful fetch in `getNewWechatMessage` returning the
cursor `c` and the records `m1..mk` (the store holding a `WebInitResponse`),
the function returns nil; the store's `SyncKey` is `c`; and the run has
recorded, after the fetch, first the cursor update and then one handler
invocation per record, in the order received, each on the record with its
back-reference attached.  With no record, or with no handler registered,
nothing is dispatched and the cursor is `c` all the same. -/
theorem C10_cursor_then_dispatch (env : Env W) (b : Bot W) (r : WebInitResponse)
    (resp : WebWxSyncResponse) (w : W) (hr : b.storage.Response = some r)
    (hs : env.Caller.WebWxSync b.storage.Request b.storage.Response b.storage.LoginInfo b.world =
      (.ok resp, w)) :
    ∃ b1 : Bot W,
      getNewWechatMessage env b = (.ret none, b1) ∧
      b1.storage.Response = some { r with SyncKey := resp.SyncKey } ∧
      b1.trace = b.trace ++ [.webWxSync, .setSyncKey resp.SyncKey] ++
        (if b.MessageHandler then resp.AddMsgList.map fun m => .messageHandler m.init else []) ∧
      (∀ m ∈ resp.AddMsgList, m.init.Bot = true) ∧
      (resp.AddMsgList = [] ∨ b.MessageHandler = false →
        b1.trace = b.trace ++ [.webWxSync, .setSyncKey resp.SyncKey]) := by
  have h : getNewWechatMessage env b = (.ret none,
      { b with
        world := w
        storage := { b.storage with Response := some { r with SyncKey := resp.SyncKey } }
        trace := b.trace ++ [.webWxSync, .setSyncKey resp.SyncKey] ++
          dispatchTrace b.MessageHandler resp.AddMsgList }) := by
    unfold getNewWechatMessage
    simp only [Bot.emit, hs]
    simp only [hr]
    rw [dispatch_eq]
    simp [List.append_assoc]
  refine ⟨_, h, rfl, rfl, fun m _ => rfl, ?_⟩
  rintro (h0 | h0)
  · simp [dispatchTrace, h0]
  · simp [dispatchTrace, h0]

/-- Witness of C10: a batch of two records with a handler registered. -/
theorem C10_cursor_then_dispatch_witness :
    ∃ b1 : Bot Script,
      getNewWechatMessage Script.env
        { Script.loggedIn { Script.quiet with webWxSync :=
            [.ok ⟨⟨1, [⟨1, 11⟩]⟩, [⟨"m1", "a", false⟩, ⟨"m2", "b", false⟩]⟩] } with
          MessageHandler := true } = (.ret none, b1) ∧
      b1.storage.Response =
        some { User := { UserName := "@me" }, SyncKey := ⟨1, [⟨1, 11⟩]⟩ } ∧
      b1.trace = (Script.loggedIn Script.quiet).trace ++ [.webWxSync, .setSyncKey ⟨1, [⟨1, 11⟩]⟩] ++
        [.messageHandler ⟨"m1", "a", true⟩, .messageHandler ⟨"m2", "b", true⟩] ∧
      (∀ m ∈ [(⟨"m1", "a", false⟩ : Message), ⟨"m2", "b", false⟩], m.init.Bot = true) ∧
      (([⟨"m1", "a", false⟩, ⟨"m2", "b", false⟩] : List Message) = [] ∨ true = false →
        b1.trace = (Script.loggedIn Script.quiet).trace ++ [.webWxSync, .setSyncKey ⟨1, [⟨1, 11⟩]⟩]) :=
  C10_cursor_then_dispatch Script.env
    { Script.loggedIn { Script.quiet with webWxSync :=
        [.ok ⟨⟨1, [⟨1, 11⟩]⟩, [⟨"m1", "a", false⟩, ⟨"m2", "b", false⟩]⟩] } with
      MessageHandler := true }
    { User := { UserName := "@me" }, SyncKey := { Count := 1, List := [{ Key := 1, Val := 10 }] } }
    ⟨⟨1, [⟨1, 11⟩]⟩, [⟨"m1", "a", false⟩, ⟨"m2", "b", false⟩]⟩ Script.quiet rfl rfl

theorem HotLogin_loaded (env : Env W) (storage : HotReloadStorage W) (retry : List Bool)
    (fuel : Nat) (b : Bot W) (wl : W) (hl : storage.Load b.world = (none, wl)) :
    HotLogin env storage retry fuel b =
      match hotLoginInit env (loadedBot storage wl b) with
      | (.panic, b) => some (.panic, b)
      | (.ret (some e), b) => some (.ret (some e), b)
      | (.ret none, b) =>
        match webInit env b with
        | (none, b) => some (.ret none, b)
        | (some e, b) =>
          match retry with
          | true :: _ => liftRet (Login env fuel b)
          | _ => some (.ret (some e), b) := by
  unfold HotLogin loadedBot
  simp only [Bot.emit, hl]

theorem HotLoginWithUUID_loaded (env : Env W) (uuid : String) (storage : HotReloadStorage W)
    (retry : List Bool) (fuel : Nat) (b : Bot W) (wl : W)
    (hl : storage.Load b.world = (none, wl)) :
    HotLoginWithUUID env uuid storage retry fuel b =
      match hotLoginInit env (loadedBot storage wl b) with
      | (.panic, b) => some (.panic, b)
      | (.ret (some e), b) => some (.ret (some e), b)
      | (.ret none, b) =>
        match webInit env b with
        | (none, b) => some (.ret none, b)
        | (some e, b) =>
          match retry with
          | true :: _ => liftRet (LoginWithUUID env uuid fuel b)
          | _ => some (.ret (some e), b) := by
  unfold HotLoginWithUUID loadedBot
  simp only [Bot.emit, hl]

/-- The cookie loop of `hotLoginInit` writes to the jar only. -/
theorem setCookies_frame (env : Env W) (cs : CookieMap) :
    ∀ b : Bot W, (hotLoginInit.setCookies env cs b).2 =
      { b with jar := (hotLoginInit.setCookies env cs b).2.jar } := by
  induction cs with
  | nil => intro b; rfl
  | cons c rest ih =>
    intro b
    obtain ⟨u, ck⟩ := c
    rw [hotLoginInit.setCookies]
    split
    · rfl
    · rw [ih]

theorem hotLoginInit_trace (env : Env W) (b : Bot W) : (hotLoginInit env b).2.trace = b.trace := by
  unfold hotLoginInit
  split
  · rfl
  · dsimp only
    split
    · rename_i h
      have := congrArg (fun x => x.2.trace) h
      simp only at this
      rw [setCookies_frame] at this
      exact this.symm
    · rename_i h
      have := congrArg (fun x => x.2.trace) h
      simp only at this
      rw [setCookies_frame] at this
      exact this.symm

theorem qrRequests_append (a c : List Event) :
    qrRequests (a ++ c) = qrRequests a + qrRequests c := by
  simp [qrRequests]

theorem qrRequests_establishing (evs : List Event) (h : ∀ e ∈ evs, e.establishing = true) :
    qrRequests evs = 0 := by
  simp only [qrRequests, List.length_eq_zero, List.filter_eq_nil_iff]
  intro e he
  have := h e he
  cases e <;> simp_all [Event.establishing]

/-- Resumption issues neither a QR request nor a `CheckLogin` call. -/
theorem resume_no_login_flow (env : Env W) (storage : HotReloadStorage W) (wl : W) (b b1 : Bot W)
    (r : Outcome) (h : hotLoginInit env (loadedBot storage wl b) = (r, b1)) :
    qrRequests (webInit env b1).2.trace = qrRequests b.trace ∧
    checkLoginCalls (webInit env b1).2.trace = checkLoginCalls b.trace := by
  have ht : b1.trace = b.trace ++ [.load] := by
    have := hotLoginInit_trace env (loadedBot storage wl b)
    rw [h] at this
    exact this
  obtain ⟨evs, h1, h2⟩ := webInit_trace env b1
  rw [h1, ht]
  constructor
  · rw [qrRequests_append, qrRequests_append, qrRequests_establishing evs h2]
    simp [qrRequests]
  · rw [checkLoginCalls_append, checkLoginCalls_append, checkLoginCalls_establishing evs h2]
    simp [checkLoginCalls]

/-- C8, as the code has it: the snapshot loads, its only cookie URL does not
parse, the retry flag is true and a full login would succeed at once.
`HotLogin` and `HotLoginWithUUID` return the parse error `external 1` and
have made no call of the login flow (the trace holds the load alone), while
`Login` from a fresh Bot over the same world returns nil. -/
theorem C8_hotLoginInit_error_not_retried :
    (HotLogin Script.env Script.Storage [true] 5
        (NewBot { Script.login [.ok ⟨"200", [9]⟩] with
          snapshot := some (Script.item [Script.badCookie]) })).map (fun r => (r.1, r.2.trace)) =
      some (.ret (some (.external 1)), [.load]) ∧
    (HotLoginWithUUID Script.env "abc123" Script.Storage [true] 5
        (NewBot { Script.login [.ok ⟨"200", [9]⟩] with
          snapshot := some (Script.item [Script.badCookie]) })).map (fun r => (r.1, r.2.trace)) =
      some (.ret (some (.external 1)), [.load]) ∧
    (Login Script.env 5
        (NewBot { Script.login [.ok ⟨"200", [9]⟩] with
          snapshot := some (Script.item [Script.badCookie]) })).map (fun r => r.1) = some none := by
  decide

/-- C8 amended: for `HotLogin` and `HotLoginWithUUID` when `storage.Load()`
succeeds: if `hotLoginInit` fails with `e`, the call returns `e` whatever the
retry flag; if `hotLoginInit` and `webInit` succeed, the call returns nil
and has requested no QR identifier and made no `CheckLogin` call; if
`hotLoginInit` succeeds and `webInit` fails with `e`, the call runs the full
login flow (`Login`, or `LoginWithUUID`) and returns its result when the
retry flag is true, and returns `e` when the flag is false or absent. -/
theorem C8_hot_login (env : Env W) (uuid : String) (storage : HotReloadStorage W)
    (retry : List Bool) (fuel : Nat) (b : Bot W) (wl : W)
    (hl : storage.Load b.world = (none, wl)) :
    (∀ e b1, hotLoginInit env (loadedBot storage wl b) = (.ret (some e), b1) →
      HotLogin env storage retry fuel b = some (.ret (some e), b1) ∧
      HotLoginWithUUID env uuid storage retry fuel b = some (.ret (some e), b1)) ∧
    (∀ b1, hotLoginInit env (loadedBot storage wl b) = (.ret none, b1) →
      (∀ b2, webInit env b1 = (none, b2) →
        HotLogin env storage retry fuel b = some (.ret none, b2) ∧
        HotLoginWithUUID env uuid storage retry fuel b = some (.ret none, b2) ∧
        qrRequests b2.trace = qrRequests b.trace ∧
        checkLoginCalls b2.trace = checkLoginCalls b.trace) ∧
      (∀ e b2, webInit env b1 = (some e, b2) →
        (retry.head? = some true →
          HotLogin env storage retry fuel b = liftRet (Login env fuel b2) ∧
          HotLoginWithUUID env uuid storage retry fuel b = liftRet (LoginWithUUID env uuid fuel b2)) ∧
        (retry.head? ≠ some true →
          HotLogin env storage retry fuel b = some (.ret (some e), b2) ∧
          HotLoginWithUUID env uuid storage retry fuel b = some (.ret (some e), b2)))) := by
  rw [HotLogin_loaded env storage retry fuel b wl hl,
    HotLoginWithUUID_loaded env uuid storage retry fuel b wl hl]
  constructor
  · intro e b1 h
    simp only [h, and_self]
  · intro b1 h
    simp only [h]
    constructor
    · intro b2 h2
      simp only [h2, true_and]
      have := resume_no_login_flow env storage wl b b1 _ h
      rw [h2] at this
      exact this
    · intro e b2 h2
      simp only [h2]
      constructor
      · intro hr
        cases retry with
        | nil => simp at hr
        | cons x xs =>
          simp only [List.head?_cons, Option.some.injEq] at hr
          subst hr
          exact ⟨rfl, rfl⟩
      · intro hr
        cases retry with
        | nil => exact ⟨rfl, rfl⟩
        | cons x xs =>
          cases x with
          | true => simp at hr
          | false => exact ⟨rfl, rfl⟩

/-- Witness of C8 amended: the snapshot applies, `webInit` fails with
`external 6`, the retry flag is true: the result is that of the full login flow. -/
theorem C8_hot_login_witness :
    HotLogin Script.env Script.Storage [true] 5
        (NewBot { Script.login [.ok ⟨"200", [9]⟩] with
          snapshot := some (Script.item [Script.goodCookie]), webInit := .error (.external 6) }) =
      liftRet (Login Script.env 5
        (webInit Script.env (hotLoginInit Script.env (loadedBot Script.Storage
          { Script.login [.ok ⟨"200", [9]⟩] with
            snapshot := some (Script.item [Script.goodCookie]), webInit := .error (.external 6) }
          (NewBot { Script.login [.ok ⟨"200", [9]⟩] with
            snapshot := some (Script.item [Script.goodCookie]),
            webInit := .error (.external 6) }))).2).2) ∧
    HotLoginWithUUID Script.env "abc123" Script.Storage [true] 5
        (NewBot { Script.login [.ok ⟨"200", [9]⟩] with
          snapshot := some (Script.item [Script.goodCookie]), webInit := .error (.external 6) }) =
      liftRet (LoginWithUUID Script.env "abc123" 5
        (webInit Script.env (hotLoginInit Script.env (loadedBot Script.Storage
          { Script.login [.ok ⟨"200", [9]⟩] with
            snapshot := some (Script.item [Script.goodCookie]), webInit := .error (.external 6) }
          (NewBot { Script.login [.ok ⟨"200", [9]⟩] with
            snapshot := some (Script.item [Script.goodCookie]),
            webInit := .error (.external 6) }))).2).2) :=
  (((C8_hot_login Script.env "abc123" Script.Storage [true] 5
      (NewBot { Script.login [.ok ⟨"200", [9]⟩] with
        snapshot := some (Script.item [Script.goodCookie]), webInit := .error (.external 6) })
      { Script.login [.ok ⟨"200", [9]⟩] with
        snapshot := some (Script.item [Script.goodCookie]), webInit := .error (.external 6) }
      rfl).2 _ rfl).2 (.external 6) _ rfl).1 rfl

theorem setCookies_error (env : Env W) (cs : CookieMap) :
    ∀ (b b1 : Bot W) (e : GoError), hotLoginInit.setCookies env cs b = (some e, b1) →
      ∃ (pre : CookieMap) (u : String) (ck : List Cookie) (post : CookieMap)
        (added : List (String × List Cookie)),
        cs = pre ++ (u, ck) :: post ∧ env.urlParse u = .error e ∧ b1.jar = b.jar ++ added ∧
        added.map (fun y => ((Except.ok y.1 : Except GoError String), y.2)) =
          pre.map (fun x => (env.urlParse x.1, x.2)) := by
  induction cs with
  | nil => intro b b1 e h; simp [hotLoginInit.setCookies] at h
  | cons c rest ih =>
    intro b b1 e h
    obtain ⟨u, ck⟩ := c
    rw [hotLoginInit.setCookies] at h
    split at h
    · rename_i e1 hu
      simp only [Prod.mk.injEq, Option.some.injEq] at h
      obtain ⟨rfl, rfl⟩ := h
      exact ⟨[], u, ck, rest, [], rfl, hu, by simp, rfl⟩
    · rename_i path hu
      obtain ⟨pre, u1, ck1, post, added, h1, h2, h3, h4⟩ := ih _ b1 e h
      refine ⟨(u, ck) :: pre, u1, ck1, post, (path, ck) :: added, by simp [h1], h2, ?_, ?_⟩
      · simp [h3]
      · simp [h4, hu]

theorem setCookies_ok (env : Env W) (cs : CookieMap) :
    ∀ (b b1 : Bot W), hotLoginInit.setCookies env cs b = (none, b1) →
      ∃ added : List (String × List Cookie), b1.jar = b.jar ++ added ∧
        added.map (fun y => ((Except.ok y.1 : Except GoError String), y.2)) =
          cs.map (fun x => (env.urlParse x.1, x.2)) := by
  induction cs with
  | nil =>
    intro b b1 h
    simp only [hotLoginInit.setCookies, Prod.mk.injEq, true_and] at h
    subst h
    exact ⟨[], by simp, rfl⟩
  | cons c rest ih =>
    intro b b1 h
    obtain ⟨u, ck⟩ := c
    rw [hotLoginInit.setCookies] at h
    split at h
    · simp at h
    · rename_i path hu
      obtain ⟨added, h3, h4⟩ := ih _ b1 h
      refine ⟨(path, ck) :: added, ?_, ?_⟩
      · simp [h3]
      · simp [h4, hu]

/-- The function `webInit` keeps the credentials, the request context, the routing domain and the jar. -/
theorem webInit_frame (env : Env W) (b : Bot W) :
    (webInit env b).2.storage.LoginInfo = b.storage.LoginInfo ∧
    (webInit env b).2.storage.Request = b.storage.Request ∧
    (webInit env b).2.domain = b.domain ∧ (webInit env b).2.jar = b.jar := by
  unfold webInit
  simp only [Bot.emit]
  split
  · exact ⟨rfl, rfl, rfl, rfl⟩
  · split <;> exact ⟨rfl, rfl, rfl, rfl⟩

theorem webInit_error_self (env : Env W) (b : Bot W) (e : GoError) (w : W)
    (h : env.Caller.WebInit b.storage.Request b.world = (.error e, w)) :
    (webInit env b).1 = some e ∧ (webInit env b).2.self = b.self := by
  unfold webInit
  simp only [Bot.emit, h, and_self]

/-- C9, as the code has it.  First run: the snapshot applies and `webInit`
fails with `external 6`; `HotLogin` returns that error, yet the Bot, whose
credentials, request context, routing domain and jar were empty, now holds
those of the snapshot.  Second run: the second cookie URL of the snapshot
does not parse; `HotLogin` returns the parse error and the jar has kept the
cookies of the first entry. -/
theorem C9_failed_resumption_leaves_snapshot :
    ((NewBot Script.quiet).storage.LoginInfo, (NewBot Script.quiet).storage.Request,
      (NewBot Script.quiet).domain, (NewBot Script.quiet).jar) = (none, none, "", []) ∧
    (HotLogin Script.env Script.Storage [] 5
        (NewBot { Script.quiet with
          snapshot := some (Script.item [Script.goodCookie]), webInit := .error (.external 6) })).map
      (fun r => (r.1, r.2.storage.LoginInfo, r.2.storage.Request, r.2.domain, r.2.jar)) =
      some (.ret (some (.external 6)), (Script.item []).LoginInfo, (Script.item []).BaseRequest,
        "wx.qq.com", [Script.goodCookie]) ∧
    (HotLogin Script.env Script.Storage [] 5
        (NewBot { Script.quiet with
          snapshot := some (Script.item [Script.goodCookie, Script.badCookie]) })).map
      (fun r => (r.1, r.2.storage.LoginInfo, r.2.jar)) =
      some (.ret (some (.external 1)), none, [Script.goodCookie]) := by
  exact ⟨rfl, rfl, rfl⟩

/-- C9 amended: a failed resumption does not roll the snapshot back.  If
`hotLoginInit` fails on a cookie URL, the session store, the routing domain
and the current user keep their values, and the jar has received the cookies
of exactly the entries visited before the failing one.  If `hotLoginInit`
succeeds, the credentials, the request context and the routing domain are
those of the snapshot and the jar has received all its cookies; they stay so
when `webInit` then fails, and the current user is unchanged when that
failure is the one of `Caller.WebInit`. -/
theorem C9_snapshot_application (env : Env W) (b : Bot W) (st : HotReloadStorage W)
    (hst : b.hotReloadStorage = some st) :
    (∀ e b1, hotLoginInit env b = (.ret (some e), b1) →
      b1.storage = b.storage ∧ b1.domain = b.domain ∧ b1.self = b.self ∧
      ∃ (pre : CookieMap) (u : String) (ck : List Cookie) (post : CookieMap)
        (added : List (String × List Cookie)),
        (st.GetHotReloadStorageItem b.world).Cookies = pre ++ (u, ck) :: post ∧
        env.urlParse u = .error e ∧ b1.jar = b.jar ++ added ∧
        added.map (fun y => ((Except.ok y.1 : Except GoError String), y.2)) =
          pre.map (fun x => (env.urlParse x.1, x.2))) ∧
    (∀ b1, hotLoginInit env b = (.ret none, b1) →
      SnapshotApplied env (st.GetHotReloadStorageItem b.world) b b1 ∧
      b1.self = b.self ∧
      (∀ e b2, webInit env b1 = (some e, b2) →
        SnapshotApplied env (st.GetHotReloadStorageItem b.world) b b2) ∧
      (∀ e w, env.Caller.WebInit b1.storage.Request b1.world = (.error e, w) →
        (webInit env b1).1 = some e ∧ (webInit env b1).2.self = b.self)) := by
  constructor
  · intro e b1 h
    unfold hotLoginInit at h
    simp only [hst] at h
    split at h
    · rename_i e1 b3 hc
      simp only [Prod.mk.injEq, Outcome.ret.injEq, Option.some.injEq] at h
      obtain ⟨rfl, rfl⟩ := h
      have hf := setCookies_frame env (st.GetHotReloadStorageItem b.world).Cookies b
      rw [hc] at hf
      simp only at hf
      refine ⟨?_, ?_, ?_, setCookies_error env _ b b3 e1 hc⟩
      · rw [hf]
      · rw [hf]
      · rw [hf]
    · simp at h
  · intro b1 h
    unfold hotLoginInit at h
    simp only [hst] at h
    split at h
    · simp at h
    · rename_i b3 hc
      simp only [Prod.mk.injEq, true_and] at h
      have hf := setCookies_frame env (st.GetHotReloadStorageItem b.world).Cookies b
      rw [hc] at hf
      simp only at hf
      have happ : SnapshotApplied env (st.GetHotReloadStorageItem b.world) b b1 := by
        subst h
        exact ⟨rfl, rfl, rfl, setCookies_ok env _ b b3 hc⟩
      have hself : b1.self = b.self := by
        subst h
        show b3.self = b.self
        rw [hf]
      refine ⟨happ, hself, ?_, ?_⟩
      · intro e b2 h2
        obtain ⟨f1, f2, f3, f4⟩ := webInit_frame env b1
        rw [h2] at f1 f2 f3 f4
        obtain ⟨a1, a2, a3, a4⟩ := happ
        exact ⟨f1.trans a1, f2.trans a2, f3.trans a3, by rw [f4]; exact a4⟩
      · intro e w hw
        obtain ⟨g1, g2⟩ := webInit_error_self env b1 e w hw
        exact ⟨g1, g2.trans hself⟩

/-- Witness of C9 amended: a snapshot whose second cookie URL does not parse. -/
theorem C9_snapshot_application_witness :
    (hotLoginInit Script.env (loadedBot Script.Storage
        { Script.quiet with snapshot := some (Script.item [Script.goodCookie, Script.badCookie]) }
        (NewBot { Script.quiet with
          snapshot := some (Script.item [Script.goodCookie, Script.badCookie]) }))).2.storage =
      (loadedBot Script.Storage
        { Script.quiet with snapshot := some (Script.item [Script.goodCookie, Script.badCookie]) }
        (NewBot { Script.quiet with
          snapshot := some (Script.item [Script.goodCookie, Script.badCookie]) })).storage :=
  ((C9_snapshot_application Script.env (loadedBot Script.Storage
      { Script.quiet with snapshot := some (Script.item [Script.goodCookie, Script.badCookie]) }
      (NewBot { Script.quiet with
        snapshot := some (Script.item [Script.goodCookie, Script.badCookie]) }))
    Script.Storage rfl).1 (.external 1) _ rfl).1

theorem webWxSyncCalls_append (a c : List Event) :
    webWxSyncCalls (a ++ c) = webWxSyncCalls a + webWxSyncCalls c := by
  simp [webWxSyncCalls]

theorem cursorUpdates_append (a c : List Event) :
    cursorUpdates (a ++ c) = cursorUpdates a ++ cursorUpdates c := by
  simp [cursorUpdates]

theorem handlerCalls_append (a c : List Event) :
    handlerCalls (a ++ c) = handlerCalls a ++ handlerCalls c := by
  simp [handlerCalls]

theorem dispatchTrace_quiet (handler : Bool) (ms : List Message) :
    webWxSyncCalls (dispatchTrace handler ms) = 0 ∧ cursorUpdates (dispatchTrace handler ms) = [] ∧
    handlerCalls (dispatchTrace handler ms) = [] := by
  cases handler
  · exact ⟨rfl, rfl, rfl⟩
  · refine ⟨?_, ?_, ?_⟩
    · simp only [dispatchTrace, webWxSyncCalls, List.length_eq_zero, List.filter_eq_nil_iff, if_true]
      intro e he
      obtain ⟨m, _, rfl⟩ := List.mem_map.1 he
      simp
    · simp only [dispatchTrace, cursorUpdates, List.filterMap_eq_nil_iff, if_true]
      intro e he
      obtain ⟨m, _, rfl⟩ := List.mem_map.1 he
      rfl
    · simp only [dispatchTrace, handlerCalls, List.filterMap_eq_nil_iff, if_true]
      intro e he
      obtain ⟨m, _, rfl⟩ := List.mem_map.1 he
      rfl

/-- One "change available" poll followed by a successful fetch costs the sync loop one iteration. -/
theorem asyncCall_cycle (env : Env W) (b : Bot W) (r0 : WebInitResponse) (sc : SyncCheckResponse)
    (resp : WebWxSyncResponse) (w0 w1 : W) (fuel : Nat) (halive : b.Alive = true)
    (hresp : b.storage.Response = some r0)
    (hp : env.Caller.SyncCheck b.storage.LoginInfo b.storage.Response b.world = (.ok sc, w0))
    (h1 : env.Success sc = true) (h2 : env.NorMal sc = false)
    (hf : env.Caller.WebWxSync b.storage.Request b.storage.Response b.storage.LoginInfo w0 =
      (.ok resp, w1)) :
    asyncCall env (fuel + 1) b = asyncCall env fuel (cycleBot resp w1 b) := by
  rw [asyncCall]
  simp only [halive, if_true, Bot.emit, hp, h1, h2, Bool.not_true, Bool.not_false]
  have hg : getNewWechatMessage env
      { b with world := w0, trace := b.trace ++ [Event.syncCheck] } =
      (.ret none, cycleBot resp w1 b) := by
    unfold getNewWechatMessage
    simp only [Bot.emit, hf]
    simp only [hresp]
    rw [dispatch_eq]
    simp [cycleBot, hresp, List.append_assoc]
  simp [hg]

theorem cycleBot_Alive (resp : WebWxSyncResponse) (w1 : W) (b : Bot W) :
    (cycleBot resp w1 b).Alive = b.Alive := rfl

/-- A run of cycles costs the sync loop one iteration each. -/
theorem asyncCall_cycles (env : Env W) (resps : List WebWxSyncResponse) :
    ∀ (b b1 : Bot W) (fuel : Nat), b.Alive = true → b.storage.Response.isSome = true →
      SyncCycles env resps b b1 →
      asyncCall env (resps.length + fuel) b = asyncCall env fuel b1 := by
  induction resps with
  | nil =>
    intro b b1 fuel _ _ hc
    simp only [SyncCycles] at hc
    subst hc
    simp
  | cons resp rest ih =>
    intro b b1 fuel halive hsome hc
    obtain ⟨sc, w0, w1, hp, h1, h2, hf, hrest⟩ := hc
    obtain ⟨r0, hr0⟩ := Option.isSome_iff_exists.1 hsome
    have hlen : (resp :: rest).length + fuel = (rest.length + fuel) + 1 := by simp; omega
    rw [hlen, asyncCall_cycle env b r0 sc resp w0 w1 _ halive hr0 hp h1 h2 hf]
    exact ih _ b1 fuel halive (by simp [cycleBot, hr0]) hrest

/-- What a run of cycles leaves in the Bot. -/
theorem SyncCycles_spec (env : Env W) (resps : List WebWxSyncResponse) :
    ∀ (b b1 : Bot W) (r0 : WebInitResponse), b.storage.Response = some r0 →
      SyncCycles env resps b b1 →
      webWxSyncCalls b1.trace = webWxSyncCalls b.trace + resps.length ∧
      cursorUpdates b1.trace = cursorUpdates b.trace ++ resps.map (fun x => x.SyncKey) ∧
      handlerCalls b1.trace = handlerCalls b.trace ∧
      b1.Alive = b.Alive ∧ b1.GetMessageErrorHandler = b.GetMessageErrorHandler ∧
      b1.storage.Response.map (fun x => x.SyncKey) =
        some ((resps.map fun x => x.SyncKey).getLast?.getD r0.SyncKey) := by
  induction resps with
  | nil =>
    intro b b1 r0 hr0 hc
    simp only [SyncCycles] at hc
    subst hc
    simp [hr0]
  | cons resp rest ih =>
    intro b b1 r0 hr0 hc
    obtain ⟨sc, w0, w1, hp, h1, h2, hf, hrest⟩ := hc
    have hr1 : (cycleBot resp w1 b).storage.Response = some { r0 with SyncKey := resp.SyncKey } := by
      simp [cycleBot, hr0]
    obtain ⟨a1, a2, a3, a4, a5, a6⟩ := ih _ b1 _ hr1 hrest
    obtain ⟨q1, q2, q3⟩ := dispatchTrace_quiet b.MessageHandler resp.AddMsgList
    refine ⟨?_, ?_, ?_, ?_, ?_, ?_⟩
    · rw [a1]
      simp only [cycleBot, webWxSyncCalls_append, q1]
      simp [webWxSyncCalls]
      omega
    · rw [a2]
      simp only [cycleBot, cursorUpdates_append, q2]
      simp [cursorUpdates]
    · rw [a3]
      simp only [cycleBot, handlerCalls_append, q3]
      simp [handlerCalls]
    · rw [a4]
      rfl
    · rw [a5]
      rfl
    · rw [a6]
      cases rest with
      | nil => simp
      | cons x xs =>
        simp only [List.map_cons, List.getLast?_cons_cons]
        cases h : (x.SyncKey :: List.map (fun x => x.SyncKey) xs).getLast? with
        | none => simp at h
        | some v => simp

theorem SyncCycles_withHandler (env : Env W) (resps : List WebWxSyncResponse) :
    ∀ (b b1 : Bot W), SyncCycles env resps b b1 →
      SyncCycles env resps (withHandler b) (withHandler b1) := by
  induction resps with
  | nil =>
    intro b b1 hc
    simp only [SyncCycles] at hc ⊢
    rw [hc]
  | cons resp rest ih =>
    intro b b1 hc
    obtain ⟨sc, w0, w1, hp, h1, h2, hf, hrest⟩ := hc
    have hb : (withHandler b).storage = b.storage ∧ (withHandler b).world = b.world := by
      unfold withHandler
      split <;> exact ⟨rfl, rfl⟩
    have hcyc : cycleBot resp w1 (withHandler b) = withHandler (cycleBot resp w1 b) := by
      unfold withHandler
      cases h : b.GetMessageErrorHandler <;> simp [cycleBot, h]
    refine ⟨sc, w0, w1, ?_, h1, h2, ?_, ?_⟩
    · rw [hb.1, hb.2]; exact hp
    · rw [hb.1]; exact hf
    · rw [hcyc]; exact ih _ b1 hrest

/-- A poll answered "session invalidated" ends the sync loop with the answer as error. -/
theorem asyncCall_invalidated (env : Env W) (b : Bot W) (r : SyncCheckResponse) (w2 : W)
    (fuel : Nat) (halive : b.Alive = true)
    (hp : env.Caller.SyncCheck b.storage.LoginInfo b.storage.Response b.world = (.ok r, w2))
    (hr : env.Success r = false) :
    asyncCall env (fuel + 1) b =
      some (.ret (some (.syncCheck r.RetCode r.Selector)),
        { b with world := w2, trace := b.trace ++ [.syncCheck] }) := by
  rw [asyncCall]
  simp [halive, Bot.emit, hp, hr]

theorem withHandler_frame (b : Bot W) :
    (withHandler b).storage = b.storage ∧ (withHandler b).world = b.world ∧
    (withHandler b).Alive = b.Alive ∧ (withHandler b).trace = b.trace ∧
    ((withHandler b).GetMessageErrorHandler = some .custom ↔
      b.GetMessageErrorHandler = some .custom) := by
  unfold withHandler
  cases h : b.GetMessageErrorHandler <;> simp [h, Bot.Alive]

/-- Cycles followed by a "session invalidated" poll: the sync loop returns the poll's answer. -/
theorem asyncCall_remote_logout (env : Env W) (resps : List WebWxSyncResponse)
    (r : SyncCheckResponse) (b b1 : Bot W) (w2 : W) (halive : b.Alive = true)
    (hsome : b.storage.Response.isSome = true) (hc : SyncCycles env resps b b1)
    (hlast : env.Caller.SyncCheck b1.storage.LoginInfo b1.storage.Response b1.world = (.ok r, w2))
    (hr : env.Success r = false) (fuel : Nat) (hf : resps.length + 1 ≤ fuel) :
    asyncCall env fuel b =
      some (.ret (some (.syncCheck r.RetCode r.Selector)),
        { b1 with world := w2, trace := b1.trace ++ [.syncCheck] }) := by
  obtain ⟨k, rfl⟩ : ∃ k, fuel = resps.length + (k + 1) := ⟨fuel - (resps.length + 1), by omega⟩
  obtain ⟨r0, hr0⟩ := Option.isSome_iff_exists.1 hsome
  have halive1 : b1.Alive = true := by
    rw [(SyncCycles_spec env resps b b1 r0 hr0 hc).2.2.2.1, halive]
  rw [asyncCall_cycles env resps b b1 _ halive hsome hc,
    asyncCall_invalidated env b1 r w2 k halive1 hlast hr]

/-- C11: if an alive Bot's sync loop receives `n` "change available" poll
results, each followed by a successful fetch returning the cursor `c_i`, and
then one "session invalidated" poll result `r`, then with enough fuel
`asyncCall` returns `r` as its error after exactly `n` `WebWxSync` calls, the
store's cursor has been set `n` times, to `c_1 .. c_n` in order, and ends
equal to `c_n`; and the sync goroutine hands `r` to the failure handler
exactly once, after which, with the default handler, `Alive()` is false. -/
theorem C11_sync_until_remote_logout (env : Env W) (resps : List WebWxSyncResponse)
    (r : SyncCheckResponse) (b b1 : Bot W) (r0 : WebInitResponse) (w2 : W)
    (halive : b.Alive = true) (hr0 : b.storage.Response = some r0)
    (hc : SyncCycles env resps b b1)
    (hlast : env.Caller.SyncCheck b1.storage.LoginInfo b1.storage.Response b1.world = (.ok r, w2))
    (hr : env.Success r = false) (fuel : Nat) (hf : resps.length + 1 ≤ fuel) :
    ∃ b2 b3 : Bot W,
      asyncCall env fuel b = some (.ret (some (.syncCheck r.RetCode r.Selector)), b2) ∧
      webWxSyncCalls b2.trace = webWxSyncCalls b.trace + resps.length ∧
      cursorUpdates b2.trace = cursorUpdates b.trace ++ resps.map (fun x => x.SyncKey) ∧
      b2.storage.Response.map (fun x => x.SyncKey) =
        some ((resps.map fun x => x.SyncKey).getLast?.getD r0.SyncKey) ∧
      syncGoroutine env fuel b = some (.ret none, b3) ∧
      handlerCalls b3.trace = handlerCalls b.trace ++ [.syncCheck r.RetCode r.Selector] ∧
      (b.GetMessageErrorHandler ≠ some .custom → b3.Alive = false) := by
  have hsome : b.storage.Response.isSome = true := by simp [hr0]
  obtain ⟨s1, s2, s3, s4, s5, s6⟩ := SyncCycles_spec env resps b b1 r0 hr0 hc
  obtain ⟨f1, f2, f3, f4, f5⟩ := withHandler_frame b
  obtain ⟨g1, g2, g3, g4, g5⟩ := withHandler_frame b1
  have hgo : asyncCall env fuel (withHandler b) =
      some (.ret (some (.syncCheck r.RetCode r.Selector)),
        { withHandler b1 with world := w2, trace := (withHandler b1).trace ++ [.syncCheck] }) := by
    apply asyncCall_remote_logout env resps r (withHandler b) (withHandler b1) w2
      (by rw [f3, halive]) (by rw [f1]; exact hsome) (SyncCycles_withHandler env resps b b1 hc)
      (by rw [g1, g2]; exact hlast) hr fuel hf
  have hh : (withHandler b1).GetMessageErrorHandler = some .custom ↔
      b.GetMessageErrorHandler = some .custom := by rw [g5, s5]
  have hsync : syncGoroutine env fuel b =
      some (.ret none,
        match (withHandler b1).GetMessageErrorHandler with
        | some .custom =>
          { withHandler b1 with
            world := w2
            trace := (withHandler b1).trace ++ [.syncCheck] ++
              [.errorHandler (.syncCheck r.RetCode r.Selector)] }
        | _ =>
          stopAsyncCALL (.syncCheck r.RetCode r.Selector)
            { withHandler b1 with
              world := w2
              trace := (withHandler b1).trace ++ [.syncCheck] ++
                [.errorHandler (.syncCheck r.RetCode r.Selector)] }) := by
    unfold syncGoroutine
    have hw : (match b.GetMessageErrorHandler with
        | none => { b with GetMessageErrorHandler := some ErrorHandler.stopAsyncCALL }
        | some _ => b) = withHandler b := rfl
    simp only [hw, hgo, Bot.emit]
    split <;> simp_all
  refine ⟨{ b1 with world := w2, trace := b1.trace ++ [.syncCheck] }, _,
    asyncCall_remote_logout env resps r b b1 w2 halive hsome hc hlast hr fuel hf,
    ?_, ?_, s6, hsync, ?_, ?_⟩
  · simp only [webWxSyncCalls_append, s1]
    simp [webWxSyncCalls]
  · simp only [cursorUpdates_append, s2]
    simp [cursorUpdates]
  · split
    · simp only [handlerCalls_append, g4, s3]
      simp [handlerCalls]
    · simp only [stopAsyncCALL, handlerCalls_append, g4, s3]
      simp [handlerCalls]
  · intro hcustom
    split
    · rename_i hcus
      exact absurd (hh.1 hcus) hcustom
    · rfl

/-- Witness of C11: the scenario of the specification, two "change available"
polls with their fetches, then a poll answered with return code 1101. -/
theorem C11_sync_until_remote_logout_witness :
    ∃ b2 b3 : Bot Script,
      asyncCall Script.env 3
          (Script.loggedIn (Script.sync [.ok ⟨"0", "2"⟩, .ok ⟨"0", "2"⟩, .ok ⟨"1101", "0"⟩]
            [.ok ⟨⟨1, [⟨1, 11⟩]⟩, []⟩, .ok ⟨⟨1, [⟨1, 12⟩]⟩, []⟩])) =
        some (.ret (some (.syncCheck "1101" "0")), b2) ∧
      webWxSyncCalls b2.trace = webWxSyncCalls (Script.loggedIn Script.quiet).trace + 2 ∧
      cursorUpdates b2.trace = cursorUpdates (Script.loggedIn Script.quiet).trace ++
        [⟨1, [⟨1, 11⟩]⟩, ⟨1, [⟨1, 12⟩]⟩] ∧
      b2.storage.Response.map (fun x => x.SyncKey) = some ⟨1, [⟨1, 12⟩]⟩ ∧
      syncGoroutine Script.env 3
          (Script.loggedIn (Script.sync [.ok ⟨"0", "2"⟩, .ok ⟨"0", "2"⟩, .ok ⟨"1101", "0"⟩]
            [.ok ⟨⟨1, [⟨1, 11⟩]⟩, []⟩, .ok ⟨⟨1, [⟨1, 12⟩]⟩, []⟩])) = some (.ret none, b3) ∧
      handlerCalls b3.trace = handlerCalls (Script.loggedIn Script.quiet).trace ++
        [.syncCheck "1101" "0"] ∧
      ((none : Option ErrorHandler) ≠ some .custom → b3.Alive = false) :=
  C11_sync_until_remote_logout Script.env [⟨⟨1, [⟨1, 11⟩]⟩, []⟩, ⟨⟨1, [⟨1, 12⟩]⟩, []⟩]
    ⟨"1101", "0"⟩
    (Script.loggedIn (Script.sync [.ok ⟨"0", "2"⟩, .ok ⟨"0", "2"⟩, .ok ⟨"1101", "0"⟩]
      [.ok ⟨⟨1, [⟨1, 11⟩]⟩, []⟩, .ok ⟨⟨1, [⟨1, 12⟩]⟩, []⟩]))
    _ { User := { UserName := "@me" }, SyncKey := { Count := 1, List := [{ Key := 1, Val := 10 }] } }
    Script.quiet (by decide) rfl
    ⟨⟨"0", "2"⟩, _, _, rfl, rfl, rfl, rfl, ⟨"0", "2"⟩, _, _, rfl, rfl, rfl, rfl, rfl⟩
    rfl rfl 3 (by decide)

/-- A return of the loop of `LoginWithUUID`: either the loop itself returned an
error, the session untouched, or it returned what `handleLogin` returned on a
Bot with the same session. -/
theorem LoginWithUUID_result (env : Env W) (uuid : String) :
    ∀ (fuel : Nat) (b b1 : Bot W) (r : Option GoError),
      LoginWithUUID env uuid fuel b = some (r, b1) →
      (∃ e, r = some e ∧ b1.storage = b.storage ∧ b1.self = b.self ∧ b1.done = b.done) ∨
      (∃ (p : Bytes) (bc : Bot W), bc.storage = b.storage ∧ bc.self = b.self ∧
        bc.done = b.done ∧ handleLogin env p bc = (r, b1)) := by
  intro fuel
  induction fuel with
  | zero => intro b b1 r h; simp [LoginWithUUID] at h
  | succ fuel ih =>
    intro b b1 r h
    rw [LoginWithUUID] at h
    simp only [Bot.emit] at h
    split at h
    · simp only [Option.some.injEq, Prod.mk.injEq] at h
      obtain ⟨rfl, rfl⟩ := h
      exact Or.inl ⟨_, rfl, rfl, rfl, rfl⟩
    · split at h
      · simp only [Option.some.injEq] at h
        refine Or.inr ⟨_, _, ?_, ?_, ?_, h⟩ <;> split <;> rfl
      · split at h
        · rcases ih _ b1 r h with ⟨e, h1, h2, h3, h4⟩ | ⟨p, bc, h1, h2, h3, h4⟩
          · refine Or.inl ⟨e, h1, ?_, ?_, ?_⟩
            · rw [h2]; split <;> rfl
            · rw [h3]; split <;> rfl
            · rw [h4]; split <;> rfl
          · refine Or.inr ⟨p, bc, ?_, ?_, ?_, h4⟩
            · rw [h1]; split <;> rfl
            · rw [h2]; split <;> rfl
            · rw [h3]; split <;> rfl
        · split at h
          · simp only [Option.some.injEq, Prod.mk.injEq] at h
            obtain ⟨rfl, rfl⟩ := h
            exact Or.inl ⟨_, rfl, rfl, rfl, rfl⟩
          · split at h
            · rcases ih _ b1 r h with ⟨e, h1, h2, h3, h4⟩ | ⟨p, bc, h1, h2, h3, h4⟩
              · exact Or.inl ⟨e, h1, h2, h3, h4⟩
              · exact Or.inr ⟨p, bc, h1, h2, h3, h4⟩
            · rcases ih _ b1 r h with ⟨e, h1, h2, h3, h4⟩ | ⟨p, bc, h1, h2, h3, h4⟩
              · exact Or.inl ⟨e, h1, h2, h3, h4⟩
              · exact Or.inr ⟨p, bc, h1, h2, h3, h4⟩

/-- A return of the loop of `Login`, as for `LoginWithUUID`. -/
theorem Login.loop_result (env : Env W) (uuid : String) :
    ∀ (fuel : Nat) (b b1 : Bot W) (r : Option GoError),
      Login.loop env uuid fuel b = some (r, b1) →
      (∃ e, r = some e ∧ b1.storage = b.storage ∧ b1.self = b.self ∧ b1.done = b.done) ∨
      (∃ (p : Bytes) (bc : Bot W), bc.storage = b.storage ∧ bc.self = b.self ∧
        bc.done = b.done ∧ handleLogin env p bc = (r, b1)) := by
  intro fuel
  induction fuel with
  | zero => intro b b1 r h; simp [Login.loop] at h
  | succ fuel ih =>
    intro b b1 r h
    rw [Login.loop] at h
    simp only [Bot.emit] at h
    split at h
    · simp only [Option.some.injEq, Prod.mk.injEq] at h
      obtain ⟨rfl, rfl⟩ := h
      exact Or.inl ⟨_, rfl, rfl, rfl, rfl⟩
    · split at h
      · simp only [Option.some.injEq] at h
        refine Or.inr ⟨_, _, ?_, ?_, ?_, h⟩ <;> split <;> rfl
      · split at h
        · rcases ih _ b1 r h with ⟨e, h1, h2, h3, h4⟩ | ⟨p, bc, h1, h2, h3, h4⟩
          · refine Or.inl ⟨e, h1, ?_, ?_, ?_⟩
            · rw [h2]; split <;> rfl
            · rw [h3]; split <;> rfl
            · rw [h4]; split <;> rfl
          · refine Or.inr ⟨p, bc, ?_, ?_, ?_, h4⟩
            · rw [h1]; split <;> rfl
            · rw [h2]; split <;> rfl
            · rw [h3]; split <;> rfl
        · split at h
          · simp only [Option.some.injEq, Prod.mk.injEq] at h
            obtain ⟨rfl, rfl⟩ := h
            exact Or.inl ⟨_, rfl, rfl, rfl, rfl⟩
          · split at h
            · rcases ih _ b1 r h with ⟨e, h1, h2, h3, h4⟩ | ⟨p, bc, h1, h2, h3, h4⟩
              · exact Or.inl ⟨e, h1, h2, h3, h4⟩
              · exact Or.inr ⟨p, bc, h1, h2, h3, h4⟩
            · rcases ih _ b1 r h with ⟨e, h1, h2, h3, h4⟩ | ⟨p, bc, h1, h2, h3, h4⟩
              · exact Or.inl ⟨e, h1, h2, h3, h4⟩
              · exact Or.inr ⟨p, bc, h1, h2, h3, h4⟩

/-- A return of `Login`, as for `LoginWithUUID`. -/
theorem Login_result (env : Env W) (fuel : Nat) (b b1 : Bot W) (r : Option GoError)
    (h : Login env fuel b = some (r, b1)) :
    (∃ e, r = some e ∧ b1.storage = b.storage ∧ b1.self = b.self ∧ b1.done = b.done) ∨
    (∃ (p : Bytes) (bc : Bot W), bc.storage = b.storage ∧ bc.self = b.self ∧
      bc.done = b.done ∧ handleLogin env p bc = (r, b1)) := by
  unfold Login at h
  simp only [Bot.emit] at h
  split at h
  · simp only [Option.some.injEq, Prod.mk.injEq] at h
    obtain ⟨rfl, rfl⟩ := h
    exact Or.inl ⟨_, rfl, rfl, rfl, rfl⟩
  · rcases Login.loop_result env _ fuel _ b1 r h with ⟨e, h1, h2, h3, h4⟩ | ⟨p, bc, h1, h2, h3, h4⟩
    · refine Or.inl ⟨e, h1, ?_, ?_, ?_⟩
      · rw [h2]; split <;> rfl
      · rw [h3]; split <;> rfl
      · rw [h4]; split <;> rfl
    · refine Or.inr ⟨p, bc, ?_, ?_, ?_, h4⟩
      · rw [h1]; split <;> rfl
      · rw [h2]; split <;> rfl
      · rw [h3]; split <;> rfl

theorem webInit_ok (env : Env W) (b b1 : Bot W) (h : webInit env b = (none, b1)) :
    ∃ resp : WebInitResponse,
      b1.storage = { b.storage with Response := some resp } ∧ b1.self = some { User := resp.User } := by
  unfold webInit at h
  simp only [Bot.emit] at h
  split at h
  · simp at h
  · split at h
    · simp at h
    · simp only [Prod.mk.injEq, true_and] at h
      subst h
      exact ⟨_, rfl, rfl⟩

theorem DumpHotReloadStorage_done (env : Env W) (b : Bot W) :
    (DumpHotReloadStorage env b).2.done = b.done := by
  unfold DumpHotReloadStorage
  split <;> rfl

/-- C13, as the code has it: the first answer to `CheckLogin` carries the
status code "500", which is none of the four known codes, and the second is
Confirmed.  `LoginWithUUID` and `Login` do not return on the first answer:
they call `CheckLogin` a second time and return nil. -/
theorem C13_unknown_status_polls_again :
    (LoginWithUUID Script.env "abc123" 2
        (Script.bot (Script.login [.ok ⟨"500", []⟩, .ok ⟨"200", [9]⟩]) false)).map
      (fun r => (r.1, checkLoginCalls r.2.trace)) = some (none, 2) ∧
    (Login Script.env 2
        (Script.bot (Script.login [.ok ⟨"500", []⟩, .ok ⟨"200", [9]⟩]) false)).map
      (fun r => (r.1, checkLoginCalls r.2.trace)) = some (none, 2) := by
  decide

/-- C13 amended: for a `CheckLogin` response whose status code is none of
Confirmed, Scanned, Expired and Waiting, the loops of `LoginWithUUID` and of
`Login` do not return: they invoke no callback, leave the Bot otherwise
untouched, and go on with the next poll, as for Waiting. -/
theorem C13_unknown_status (env : Env W) (uuid : String) (r : CheckLoginResponse) (w0 : W)
    (b : Bot W) (fuel : Nat)
    (hr : r.Code ∉ [env.codes.statusSuccess, env.codes.statusScanned, env.codes.statusTimeout,
      env.codes.statusWait])
    (hc : env.Caller.CheckLogin uuid b.world = (.ok r, w0)) :
    LoginWithUUID env uuid (fuel + 1) b =
      LoginWithUUID env uuid fuel { b with world := w0, trace := b.trace ++ [.checkLogin uuid] } ∧
    Login.loop env uuid (fuel + 1) b =
      Login.loop env uuid fuel { b with world := w0, trace := b.trace ++ [.checkLogin uuid] } := by
  simp only [List.mem_cons, List.mem_singleton, List.not_mem_nil, or_false, not_or] at hr
  obtain ⟨e1, e2, e3, e4⟩ := hr
  constructor
  · rw [LoginWithUUID]
    simp only [Bot.emit, hc]
    rw [if_neg e1, if_neg e2, if_neg e3, if_neg e4]
  · rw [Login.loop]
    simp only [Bot.emit, hc]
    rw [if_neg e1, if_neg e2, if_neg e3, if_neg e4]

/-- Witness of C13 amended: the status code "500" on the scripted transport. -/
theorem C13_unknown_status_witness :
    LoginWithUUID Script.env "abc123" (1 + 1)
        (Script.bot (Script.login [.ok ⟨"500", []⟩, .ok ⟨"200", [9]⟩]) false) =
      LoginWithUUID Script.env "abc123" 1
        { Script.bot (Script.login [.ok ⟨"500", []⟩, .ok ⟨"200", [9]⟩]) false with
          world := Script.login [.ok ⟨"200", [9]⟩], trace := [] ++ [.checkLogin "abc123"] } ∧
    Login.loop Script.env "abc123" (1 + 1)
        (Script.bot (Script.login [.ok ⟨"500", []⟩, .ok ⟨"200", [9]⟩]) false) =
      Login.loop Script.env "abc123" 1
        { Script.bot (Script.login [.ok ⟨"500", []⟩, .ok ⟨"200", [9]⟩]) false with
          world := Script.login [.ok ⟨"200", [9]⟩], trace := [] ++ [.checkLogin "abc123"] } :=
  C13_unknown_status Script.env "abc123" ⟨"500", []⟩ (Script.login [.ok ⟨"200", [9]⟩])
    (Script.bot (Script.login [.ok ⟨"500", []⟩, .ok ⟨"200", [9]⟩]) false) 1 (by decide) rfl

/-- C14, as the code has it: the store holds the cursor `[(1, 10)]` and the
transport answers the fetch with the older cursor `[(1, 5)]`.
`getNewWechatMessage` returns nil and the store's cursor is then `[(1, 5)]`,
which is older than the one before. -/
theorem C14_cursor_rolled_back :
    (Script.loggedIn (Script.sync [] [.ok ⟨⟨1, [⟨1, 5⟩]⟩, []⟩])).cursor = some ⟨1, [⟨1, 10⟩]⟩ ∧
    (getNewWechatMessage Script.env
        (Script.loggedIn (Script.sync [] [.ok ⟨⟨1, [⟨1, 5⟩]⟩, []⟩]))).1 = .ret none ∧
    (getNewWechatMessage Script.env
        (Script.loggedIn (Script.sync [] [.ok ⟨⟨1, [⟨1, 5⟩]⟩, []⟩]))).2.cursor =
      some ⟨1, [⟨1, 5⟩]⟩ ∧
    SyncKey.notOlder ⟨1, [⟨1, 10⟩]⟩ ⟨1, [⟨1, 5⟩]⟩ = false := by
  decide

/-- C14 amended: after every successful `getNewWechatMessage` the store's
cursor is the cursor the transport returned in that cycle, whatever the store
held before; so over two successive successful cycles the stored cursor is
component-wise not older exactly when the cursor returned by the second
fetch is not older than the one returned by the first. -/
theorem C14_cursor_follows_transport (env : Env W) (b : Bot W) (r0 : WebInitResponse)
    (resp1 resp2 : WebWxSyncResponse) (w1 w2 : W) (hr0 : b.storage.Response = some r0)
    (h1 : env.Caller.WebWxSync b.storage.Request b.storage.Response b.storage.LoginInfo b.world =
      (.ok resp1, w1))
    (h2 : env.Caller.WebWxSync (getNewWechatMessage env b).2.storage.Request
      (getNewWechatMessage env b).2.storage.Response
      (getNewWechatMessage env b).2.storage.LoginInfo (getNewWechatMessage env b).2.world =
      (.ok resp2, w2)) :
    (getNewWechatMessage env b).2.cursor = some resp1.SyncKey ∧
    (getNewWechatMessage env (getNewWechatMessage env b).2).2.cursor = some resp2.SyncKey ∧
    ∀ c1 c2 : SyncKey, (getNewWechatMessage env b).2.cursor = some c1 →
      (getNewWechatMessage env (getNewWechatMessage env b).2).2.cursor = some c2 →
      c1.notOlder c2 = resp1.SyncKey.notOlder resp2.SyncKey := by
  have key : ∀ (b : Bot W) (r0 : WebInitResponse) (resp : WebWxSyncResponse) (w : W),
      b.storage.Response = some r0 →
      env.Caller.WebWxSync b.storage.Request b.storage.Response b.storage.LoginInfo b.world =
        (.ok resp, w) →
      (getNewWechatMessage env b).2.storage.Response = some { r0 with SyncKey := resp.SyncKey } := by
    intro b r0 resp w hr hs
    unfold getNewWechatMessage
    simp only [Bot.emit, hs]
    simp only [hr]
    rw [dispatch_eq]
  have k1 := key b r0 resp1 w1 hr0 h1
  have k2 := key _ _ resp2 w2 k1 h2
  have c1 : (getNewWechatMessage env b).2.cursor = some resp1.SyncKey := by
    simp [Bot.cursor, k1]
  have c2 : (getNewWechatMessage env (getNewWechatMessage env b).2).2.cursor =
      some resp2.SyncKey := by
    simp [Bot.cursor, k2]
  refine ⟨c1, c2, ?_⟩
  intro a1 a2 ha1 ha2
  rw [c1] at ha1
  rw [c2] at ha2
  cases ha1
  cases ha2
  rfl

/-- Witness of C14 amended: two fetches, the second returning an older cursor. -/
theorem C14_cursor_follows_transport_witness :
    (getNewWechatMessage Script.env (Script.loggedIn (Script.sync []
        [.ok ⟨⟨1, [⟨1, 11⟩]⟩, []⟩, .ok ⟨⟨1, [⟨1, 5⟩]⟩, []⟩]))).2.cursor = some ⟨1, [⟨1, 11⟩]⟩ ∧
    (getNewWechatMessage Script.env (getNewWechatMessage Script.env (Script.loggedIn (Script.sync []
        [.ok ⟨⟨1, [⟨1, 11⟩]⟩, []⟩, .ok ⟨⟨1, [⟨1, 5⟩]⟩, []⟩]))).2).2.cursor =
      some ⟨1, [⟨1, 5⟩]⟩ :=
  have h := C14_cursor_follows_transport Script.env
    (Script.loggedIn (Script.sync [] [.ok ⟨⟨1, [⟨1, 11⟩]⟩, []⟩, .ok ⟨⟨1, [⟨1, 5⟩]⟩, []⟩]))
    { User := { UserName := "@me" }, SyncKey := { Count := 1, List := [{ Key := 1, Val := 10 }] } }
    ⟨⟨1, [⟨1, 11⟩]⟩, []⟩ ⟨⟨1, [⟨1, 5⟩]⟩, []⟩
    (Script.sync [] [.ok ⟨⟨1, [⟨1, 5⟩]⟩, []⟩]) Script.quiet rfl rfl rfl
  ⟨h.1, h.2.1⟩

theorem foldl_append_slice (l : List SyncKeyItem) : ∀ acc : List String,
    l.foldl (fun slice item => slice ++ [syncKeyItemString item]) acc =
      acc ++ l.map syncKeyItemString := by
  induction l with
  | nil => intro acc; simp
  | cons x rest ih => intro acc; simp [ih]

theorem foldl_joinTail (sep : String) (rest : List String) : ∀ e : String,
    rest.foldl (fun acc s => acc ++ sep ++ s) e = e ++ joinTail sep rest := by
  induction rest with
  | nil => intro e; simp [joinTail]
  | cons s rest ih =>
    intro e
    rw [List.foldl_cons, ih, joinTail]
    simp only [String.append_assoc]

theorem stringsJoin_cons (sep e : String) (rest : List String) :
    stringsJoin (e :: rest) sep = e ++ joinTail sep rest := by
  cases rest with
  | nil => simp [stringsJoin, joinTail]
  | cons s rest => simp only [stringsJoin, foldl_joinTail]

theorem specSyncKey_cons (x : SyncKeyItem) (rest : List SyncKeyItem) :
    specSyncKey (x :: rest) = syncKeyItemString x ++ joinTail "|" (rest.map syncKeyItemString) := by
  induction rest generalizing x with
  | nil => simp [specSyncKey, joinTail, syncKeyItemString]
  | cons y rest ih =>
    rw [specSyncKey, ih y]
    simp only [List.map_cons, joinTail, syncKeyItemString, String.append_assoc]

/-- The loop and the join of `Client.SyncCheck` compute the serialisation of the specification. -/
theorem synckey_eq_spec (key : SyncKey) : Client.SyncCheck.synckey key = specSyncKey key.List := by
  unfold Client.SyncCheck.synckey
  simp only [foldl_append_slice, List.nil_append]
  cases h : key.List with
  | nil => rfl
  | cons x rest => rw [List.map_cons, stringsJoin_cons, specSyncKey_cons]

theorem digitChar_ne_bar (d : Nat) (h : d < 10) : Nat.digitChar d ≠ '|' := by
  interval_cases d <;> decide

theorem toDigitsCore_ne_bar (fuel : Nat) : ∀ (n : Nat) (ds : List Char),
    (∀ c ∈ ds, c ≠ '|') → ∀ c ∈ Nat.toDigitsCore 10 fuel n ds, c ≠ '|' := by
  induction fuel with
  | zero => intro n ds h; simpa [Nat.toDigitsCore] using h
  | succ fuel ih =>
    intro n ds h
    have hd : ∀ c ∈ Nat.digitChar (n % 10) :: ds, c ≠ '|' := by
      intro c hc
      rcases List.mem_cons.1 hc with rfl | hc
      · exact digitChar_ne_bar _ (Nat.mod_lt _ (by decide))
      · exact h c hc
    rw [Nat.toDigitsCore]
    split
    · exact hd
    · exact ih _ _ hd

theorem repr_ne_bar (n : Nat) : ∀ c ∈ (Nat.repr n).toList, c ≠ '|' := by
  have : (Nat.repr n).toList = Nat.toDigits 10 n := rfl
  rw [this]
  exact toDigitsCore_ne_bar _ _ _ (by simp)

theorem formatInt_ne_bar (i : Int) : ∀ c ∈ (formatInt i).toList, c ≠ '|' := by
  cases i with
  | ofNat n => exact repr_ne_bar n
  | negSucc n =>
    intro c hc
    simp only [formatInt, String.toList, String.data_append, List.mem_append] at hc
    rcases hc with hc | hc
    · have : c = '-' := by simpa using hc
      rw [this]; decide
    · exact repr_ne_bar _ c hc

theorem syncKeyItemString_ne_bar (item : SyncKeyItem) :
    '|' ∉ (syncKeyItemString item).toList := by
  intro hc
  simp only [syncKeyItemString, String.toList, String.data_append, List.mem_append] at hc
  rcases hc with (hc | hc) | hc
  · exact formatInt_ne_bar _ _ hc rfl
  · have : '|' = '_' := by simp at hc
    exact absurd this (by decide)
  · exact formatInt_ne_bar _ _ hc rfl

theorem joinTail_toList (l : List String) :
    (joinTail "|" l).toList = (l.map fun s => '|' :: s.toList).flatten := by
  induction l with
  | nil => rfl
  | cons s rest ih =>
    simp only [joinTail, String.toList, String.data_append, List.map_cons, List.flatten_cons] at ih ⊢
    rw [ih]
    rfl

theorem intercalate_cons_eq (sep : Char) (rest : List (List Char)) : ∀ x : List Char,
    [sep].intercalate (x :: rest) = x ++ (rest.map fun s => sep :: s).flatten := by
  induction rest with
  | nil => intro x; simp [List.intercalate]
  | cons y rest ih =>
    intro x
    have h := ih y
    simp only [List.intercalate, List.intersperse, List.flatten_cons, List.map_cons] at h ⊢
    rw [h]
    simp

theorem specSyncKey_toList (x : SyncKeyItem) (rest : List SyncKeyItem) :
    (specSyncKey (x :: rest)).toList =
      ['|'].intercalate ((x :: rest).map fun item => (syncKeyItemString item).toList) := by
  rw [specSyncKey_cons, List.map_cons, intercalate_cons_eq]
  have h := joinTail_toList (rest.map syncKeyItemString)
  simp only [String.toList, String.data_append, List.map_map] at h ⊢
  rw [h]
  rfl

/-- C15: for every `SyncKey` list, the `synckey` query parameter built by
`Client.SyncCheck` is the serialisation of the specification: the strings
`ki_vi` (decimal numerals joined by `_`) in list order with `|` between
neighbours; it is the empty string for the empty list; for a non-empty list,
cutting it at every `|` gives back exactly the strings `ki_vi` in list
order, so there is no leading, trailing or doubled separator; and two
cursors with the same list give the same parameter. -/
theorem C15_synckey_serialisation (key : SyncKey) :
    Client.SyncCheck.synckey key = specSyncKey key.List ∧
    (key.List = [] → Client.SyncCheck.synckey key = "") ∧
    (key.List ≠ [] →
      (Client.SyncCheck.synckey key).toList.splitOn '|' =
        key.List.map fun item => (syncKeyItemString item).toList) ∧
    (∀ key2 : SyncKey, key2.List = key.List →
      Client.SyncCheck.synckey key2 = Client.SyncCheck.synckey key) := by
  refine ⟨synckey_eq_spec key, ?_, ?_, ?_⟩
  · intro h
    rw [synckey_eq_spec, h]
    rfl
  · intro h
    rw [synckey_eq_spec]
    cases hl : key.List with
    | nil => exact absurd hl h
    | cons x rest =>
      rw [specSyncKey_toList]
      apply List.splitOn_intercalate
      · intro l hlmem
        obtain ⟨item, _, rfl⟩ := List.mem_map.1 hlmem
        exact syncKeyItemString_ne_bar item
      · simp
  · intro key2 h
    rw [synckey_eq_spec, synckey_eq_spec, h]

theorem webInit_done (env : Env W) (b : Bot W) : (webInit env b).2.done = b.done := by
  unfold webInit
  simp only [Bot.emit]
  split
  · rfl
  · split <;> rfl

theorem handleLogin_done (env : Env W) (data : Bytes) (b : Bot W) :
    (handleLogin env data b).2.done = b.done := by
  unfold handleLogin
  simp only [Bot.emit]
  split
  · rfl
  · split
    · split
      · rename_i hd
        have h := congrArg (fun x => x.2.done) hd
        simp only [DumpHotReloadStorage_done] at h
        exact h.symm
      · rename_i hd
        have h := congrArg (fun x => x.2.done) hd
        simp only [DumpHotReloadStorage_done] at h
        rw [webInit_done]
        exact h.symm
    · rw [webInit_done]

theorem LoginWithUUID_done (env : Env W) (uuid : String) (fuel : Nat) (b b1 : Bot W)
    (r : Option GoError) (h : LoginWithUUID env uuid fuel b = some (r, b1)) : b1.done = b.done := by
  rcases LoginWithUUID_result env uuid fuel b b1 r h with ⟨_, _, _, _, h4⟩ | ⟨p, bc, _, _, h3, h4⟩
  · exact h4
  · have := handleLogin_done env p bc
    rw [h4] at this
    exact this.trans h3

theorem Login_done (env : Env W) (fuel : Nat) (b b1 : Bot W) (r : Option GoError)
    (h : Login env fuel b = some (r, b1)) : b1.done = b.done := by
  rcases Login_result env fuel b b1 r h with ⟨_, _, _, _, h4⟩ | ⟨p, bc, _, _, h3, h4⟩
  · exact h4
  · have := handleLogin_done env p bc
    rw [h4] at this
    exact this.trans h3

theorem hotLoginInit_done (env : Env W) (b : Bot W) : (hotLoginInit env b).2.done = b.done := by
  unfold hotLoginInit
  split
  · rfl
  · dsimp only
    split
    · rename_i h
      have := congrArg (fun x => x.2.done) h
      simp only at this
      rw [setCookies_frame] at this
      exact this.symm
    · rename_i h
      have := congrArg (fun x => x.2.done) h
      simp only at this
      rw [setCookies_frame] at this
      exact this.symm

theorem liftRet_some (x : Option (Option GoError × Bot W)) (o : Outcome) (b1 : Bot W)
    (h : liftRet x = some (o, b1)) : ∃ r, x = some (r, b1) := by
  cases x with
  | none => simp [liftRet] at h
  | some v =>
    simp only [liftRet, Option.map_some', Option.some.injEq, Prod.mk.injEq] at h
    exact ⟨v.1, by rw [← h.2]⟩

/-- The tail of `HotLogin` and `HotLoginWithUUID` once the snapshot is loaded keeps `done`. -/
theorem resume_done (env : Env W) (b0 b1 : Bot W) (retry : List Bool) (o : Outcome)
    (full : Bot W → Option (Option GoError × Bot W))
    (hfull : ∀ (x y : Bot W) (r : Option GoError), full x = some (r, y) → y.done = x.done)
    (h : (match hotLoginInit env b0 with
      | (.panic, b) => some (.panic, b)
      | (.ret (some e), b) => some (.ret (some e), b)
      | (.ret none, b) =>
        match webInit env b with
        | (none, b) => some (.ret none, b)
        | (some e, b) =>
          match retry with
          | true :: _ => liftRet (full b)
          | _ => some (.ret (some e), b)) = some (o, b1)) : b1.done = b0.done := by
  have hi := hotLoginInit_done env b0
  split at h
  · rename_i b2 hh
    rw [hh] at hi
    simp only [Option.some.injEq, Prod.mk.injEq] at h
    rw [← h.2]; exact hi
  · rename_i e b2 hh
    rw [hh] at hi
    simp only [Option.some.injEq, Prod.mk.injEq] at h
    rw [← h.2]; exact hi
  · rename_i b2 hh
    rw [hh] at hi
    have hw := webInit_done env b2
    split at h
    · rename_i b3 hw3
      rw [hw3] at hw
      simp only [Option.some.injEq, Prod.mk.injEq] at h
      rw [← h.2]; exact hw.trans hi
    · rename_i e b3 hw3
      rw [hw3] at hw
      split at h
      · obtain ⟨r, hr⟩ := liftRet_some _ o b1 h
        exact (hfull _ _ r hr).trans (hw.trans hi)
      · simp only [Option.some.injEq, Prod.mk.injEq] at h
        rw [← h.2]; exact hw.trans hi

theorem HotLogin_done (env : Env W) (storage : HotReloadStorage W) (retry : List Bool)
    (fuel : Nat) (b b1 : Bot W) (o : Outcome)
    (h : HotLogin env storage retry fuel b = some (o, b1)) : b1.done = b.done := by
  unfold HotLogin at h
  simp only [Bot.emit] at h
  split at h
  · obtain ⟨r, hr⟩ := liftRet_some _ o b1 h
    have hx := Login_done env fuel _ b1 r hr
    exact hx
  · have hx := resume_done env _ b1 retry o (Login env fuel)
      (fun x y r hxy => Login_done env fuel x y r hxy) h
    exact hx

theorem HotLoginWithUUID_done (env : Env W) (uuid : String) (storage : HotReloadStorage W)
    (retry : List Bool) (fuel : Nat) (b b1 : Bot W) (o : Outcome)
    (h : HotLoginWithUUID env uuid storage retry fuel b = some (o, b1)) : b1.done = b.done := by
  unfold HotLoginWithUUID at h
  simp only [Bot.emit] at h
  split at h
  · obtain ⟨r, hr⟩ := liftRet_some _ o b1 h
    have hx := LoginWithUUID_done env uuid fuel _ b1 r hr
    exact hx
  · have hx := resume_done env _ b1 retry o (LoginWithUUID env uuid fuel)
      (fun x y r hxy => LoginWithUUID_done env uuid fuel x y r hxy) h
    exact hx

theorem not_alive_of_done (b : Bot W) (h : b.done = true) : b.Alive = false := by
  unfold Bot.Alive
  cases b.self <;> simp [h]

theorem Logout_of_done (env : Env W) (b : Bot W) (h : b.done = true) :
    (Logout env b).2 = b := by
  unfold Logout
  simp [not_alive_of_done b h]

theorem syncGoroutine_of_done (env : Env W) (fuel : Nat) (b : Bot W) (h : b.done = true) :
    syncGoroutine env fuel b = some (.ret none, withHandler b) := by
  have hw : (withHandler b).Alive = false := by
    rw [(withHandler_frame b).2.2.1]
    exact not_alive_of_done b h
  unfold syncGoroutine
  have hb : (match b.GetMessageErrorHandler with
      | none => { b with GetMessageErrorHandler := some ErrorHandler.stopAsyncCALL }
      | some _ => b) = withHandler b := rfl
  simp only [hb, asyncCall_not_alive env fuel _ hw]

theorem withHandler_done (b : Bot W) : (withHandler b).done = b.done := by
  unfold withHandler
  split <;> rfl

/-- An operation on a Bot whose context is cancelled leaves it cancelled. -/
theorem Op.run_done (env : Env W) (op : Op W) (b b1 : Bot W) (hd : b.done = true)
    (h : op.run env b = some b1) : b1.done = true := by
  cases op with
  | LoginWithUUID uuid fuel =>
    simp only [Op.run, Option.map_eq_some'] at h
    obtain ⟨⟨r, b2⟩, h1, h2⟩ := h
    simp only at h2
    subst h2
    rw [LoginWithUUID_done env uuid fuel b _ r h1, hd]
  | Login fuel =>
    simp only [Op.run, Option.map_eq_some'] at h
    obtain ⟨⟨r, b2⟩, h1, h2⟩ := h
    simp only at h2
    subst h2
    rw [Login_done env fuel b _ r h1, hd]
  | HotLogin storage retry fuel =>
    simp only [Op.run] at h
    split at h
    · rename_i o b2 hh
      simp only [Option.some.injEq] at h
      subst h
      rw [HotLogin_done env storage retry fuel b _ _ hh, hd]
    · simp at h
  | HotLoginWithUUID uuid storage retry fuel =>
    simp only [Op.run] at h
    split at h
    · rename_i o b2 hh
      simp only [Option.some.injEq] at h
      subst h
      rw [HotLoginWithUUID_done env uuid storage retry fuel b _ _ hh, hd]
    · simp at h
  | Logout =>
    simp only [Op.run, Option.some.injEq] at h
    rw [← h, Logout_of_done env b hd, hd]
  | DumpHotReloadStorage =>
    simp only [Op.run, Option.some.injEq] at h
    rw [← h, DumpHotReloadStorage_done, hd]
  | syncGoroutine fuel =>
    simp only [Op.run, syncGoroutine_of_done env fuel b hd, Option.some.injEq] at h
    rw [← h, withHandler_done, hd]
  | MessageOnSuccess =>
    simp only [Op.run, Option.some.injEq] at h
    rw [← h]; exact hd
  | MessageOnError =>
    simp only [Op.run, Option.some.injEq] at h
    rw [← h]; exact hd

theorem runOps_done (env : Env W) (ops : List (Op W)) :
    ∀ (b b1 : Bot W), b.done = true → runOps env ops b = some b1 → b1.done = true := by
  induction ops with
  | nil =>
    intro b b1 hd h
    simp only [runOps, Option.some.injEq] at h
    rw [← h]; exact hd
  | cons op rest ih =>
    intro b b1 hd h
    rw [runOps] at h
    split at h
    · simp at h
    · rename_i b2 h2
      exact ih b2 b1 (Op.run_done env op b b2 hd h2) h

/-- C16: `stopAsyncCALL` cancels the context of the Bot, `NewBot` is the only
place where a context that is not cancelled is made, and no operation
replaces it: after `stopAsyncCALL` has run, by `Logout` or as the default
sync-failure handler, the context is cancelled and `Alive()` is false after
every sequence of operations that follows, a later `Login` or `HotLogin`
that returns nil and sets the current user again included. -/
theorem C16_teardown_irreversible (env : Env W) (e : GoError) (b0 : Bot W) (ops : List (Op W))
    (b b1 : Bot W) (hb : b = stopAsyncCALL e b0 ∨ b.done = true)
    (h : runOps env ops b = some b1) :
    b.done = true ∧ b1.done = true ∧ b1.Alive = false := by
  have hd : b.done = true := by
    rcases hb with rfl | hb
    · rfl
    · exact hb
  have h1 := runOps_done env ops b b1 hd h
  exact ⟨hd, h1, not_alive_of_done b1 h1⟩

/-- Witness of C16: a logged-in scripted Bot logs out and then logs in again;
the second login returns nil and sets the current user, and the Bot is not alive. -/
theorem C16_teardown_irreversible_witness :
    ∃ b1 : Bot Script,
      Script.relogin.Alive = true ∧
      (Logout Script.env Script.relogin).1 = none ∧
      (Login Script.env 1 (Logout Script.env Script.relogin).2).map (fun r => r.1) = some none ∧
      runOps Script.env [.Login 1] (Logout Script.env Script.relogin).2 = some b1 ∧
      b1.self.isSome = true ∧
      ((Logout Script.env Script.relogin).2.done = true ∧ b1.done = true ∧ b1.Alive = false) :=
  ⟨_, by decide, by decide, by decide, rfl, rfl,
    C16_teardown_irreversible Script.env (.errorsNew "logout") Script.relogin [.Login 1]
      (Logout Script.env Script.relogin).2 _ (Or.inr rfl) rfl⟩

/-- Witness of C15: a cursor of two counters, one of them negative. -/
theorem C15_synckey_serialisation_witness :
    Client.SyncCheck.synckey ⟨2, [⟨1, 10⟩, ⟨2, -3⟩]⟩ = "1_10|2_-3" ∧
    (Client.SyncCheck.synckey ⟨2, [⟨1, 10⟩, ⟨2, -3⟩]⟩).toList.splitOn '|' =
      [(syncKeyItemString ⟨1, 10⟩).toList, (syncKeyItemString ⟨2, -3⟩).toList] :=
  ⟨by decide, (C15_synckey_serialisation ⟨2, [⟨1, 10⟩, ⟨2, -3⟩]⟩).2.2.1 (by decide)⟩

theorem callbackCalls_append (a c : List Event) :
    callbackCalls (a ++ c) = callbackCalls a ++ callbackCalls c := by
  simp [callbackCalls]

theorem callbackCalls_pollTrace (env : Env W) (uuid : String) (pre : List CheckLoginResponse) :
    callbackCalls (pollTrace env uuid true pre) = scanCalls env pre := by
  induction pre with
  | nil => rfl
  | cons r rs ih =>
    rw [pollTrace, callbackCalls_append, ih, pollEvents]
    by_cases h : r.Code = env.codes.statusScanned
    · simp [h, callbackCalls, scanCalls, Event.isCallback]
    · simp [h, callbackCalls, scanCalls, Event.isCallback]

theorem callbackCalls_establishing (evs : List Event) (h : ∀ e ∈ evs, e.establishing = true) :
    callbackCalls evs = [] := by
  simp only [callbackCalls, List.filter_eq_nil_iff]
  intro e he
  have := h e he
  cases e <;> simp_all [Event.establishing, Event.isCallback]

/-- C3: with `ScanCallBack` and `LoginCallBack` registered, when the answers to
`CheckLogin` are Waiting or Scanned and then one Confirmed with body `p`, the
login loop (of `LoginWithUUID` and of `Login`) returns, and its whole trace is
known: for each answer the `CheckLogin` call, followed for a Scanned answer by
`ScanCallBack` with that answer's raw body and for a Waiting answer by
nothing; then the last call, `LoginCallBack` with `p`, and `handleLogin` with
its own transport calls.  So the callbacks invoked, of any kind, are
`ScanCallBack` once per Scanned answer, in order, and last `LoginCallBack`
once with `p`. -/
theorem C3_callback_trace (env : Env W) (uuid : String) (pre : List CheckLoginResponse)
    (p : Bytes) (b : Bot W) (w1 : W)
    (hs : b.ScanCallBack = true) (hl : b.LoginCallBack = true)
    (hp : ∀ r ∈ pre, Pending env r)
    (ha : Answers env uuid (pre ++ [⟨env.codes.statusSuccess, p⟩]) b.world w1)
    (fuel : Nat) (hf : pre.length + 1 ≤ fuel) :
    ∃ (r : Option GoError) (b1 : Bot W) (evs : List Event),
      LoginWithUUID env uuid fuel b = some (r, b1) ∧
      Login.loop env uuid fuel b = some (r, b1) ∧
      b1.trace = b.trace ++ pollTrace env uuid true pre ++
        [.checkLogin uuid, .loginCallBack p] ++ .handleLogin p :: evs ∧
      (∀ e ∈ evs, e.establishing = true) ∧
      (∀ x : CheckLoginResponse, x.Code = env.codes.statusWait →
        pollEvents env uuid true x = [.checkLogin uuid]) ∧
      (∀ x : CheckLoginResponse, x.Code = env.codes.statusScanned →
        pollEvents env uuid true x = [.checkLogin uuid, .scanCallBack x.Raw]) ∧
      callbackCalls b1.trace = callbackCalls b.trace ++ scanCalls env pre ++ [.loginCallBack p] ∧
      loginCallbacks b1.trace = loginCallbacks b.trace ++ scanCalls env pre ++ [.loginCallBack p] := by
  obtain ⟨h1, h2⟩ := login_reaches_handleLogin env uuid pre p b w1 hp ha fuel hf
  obtain ⟨evs, ht, hevs⟩ := handleLogin_trace env p (confirmedBot env uuid pre p w1 b)
  have htr : (handleLogin env p (confirmedBot env uuid pre p w1 b)).2.trace =
      b.trace ++ pollTrace env uuid true pre ++
        [.checkLogin uuid, .loginCallBack p] ++ .handleLogin p :: evs := by
    rw [ht]
    simp [confirmedBot, hs, hl, List.append_assoc]
  refine ⟨(handleLogin env p (confirmedBot env uuid pre p w1 b)).1,
    (handleLogin env p (confirmedBot env uuid pre p w1 b)).2, evs, h1, h2, htr, hevs, ?_, ?_, ?_, ?_⟩
  · intro x hx
    have hne : ¬ x.Code = env.codes.statusScanned := by
      rw [hx]; exact fun h => env.codes.ne.2.2.2.2.1 h.symm
    simp [pollEvents, hne]
  · intro x hx
    simp [pollEvents, hx]
  · rw [htr]
    simp only [callbackCalls_append, callbackCalls_pollTrace]
    have : callbackCalls (Event.handleLogin p :: evs) = [] := by
      have := callbackCalls_establishing evs hevs
      simp only [callbackCalls] at this ⊢
      simp [List.filter_cons, Event.isCallback, this]
    rw [this]
    simp [callbackCalls, Event.isCallback]
  · rw [handleLogin_loginCallbacks]
    simp only [confirmedBot, hs, hl, loginCallbacks_append, loginCallbacks_pollTrace, if_true]
    simp [loginCallbacks]

/-- Witness of C3: the scenario Waiting, Waiting, Scanned, Confirmed of the
specification; the callbacks are the scan callback, then the login callback
with the payload. -/
theorem C3_callback_trace_witness :
    ∃ (r : Option GoError) (b1 : Bot Script) (evs : List Event),
      LoginWithUUID Script.env "abc123" 4
        (Script.bot (Script.login
          [.ok ⟨"408", []⟩, .ok ⟨"408", []⟩, .ok ⟨"201", [1]⟩, .ok ⟨"200", [9]⟩]) true) =
        some (r, b1) ∧
      Login.loop Script.env "abc123" 4
        (Script.bot (Script.login
          [.ok ⟨"408", []⟩, .ok ⟨"408", []⟩, .ok ⟨"201", [1]⟩, .ok ⟨"200", [9]⟩]) true) =
        some (r, b1) ∧
      b1.trace = [] ++ [.checkLogin "abc123", .checkLogin "abc123", .checkLogin "abc123",
          .scanCallBack [1]] ++
        [.checkLogin "abc123", .loginCallBack [9]] ++ .handleLogin [9] :: evs ∧
      (∀ e ∈ evs, e.establishing = true) ∧
      (∀ x : CheckLoginResponse, x.Code = "408" →
        pollEvents Script.env "abc123" true x = [.checkLogin "abc123"]) ∧
      (∀ x : CheckLoginResponse, x.Code = "201" →
        pollEvents Script.env "abc123" true x = [.checkLogin "abc123", .scanCallBack x.Raw]) ∧
      callbackCalls b1.trace = [] ++ [.scanCallBack [1]] ++ [.loginCallBack [9]] ∧
      loginCallbacks b1.trace = [] ++ [.scanCallBack [1]] ++ [.loginCallBack [9]] :=
  C3_callback_trace Script.env "abc123" [⟨"408", []⟩, ⟨"408", []⟩, ⟨"201", [1]⟩] [9]
    (Script.bot (Script.login
      [.ok ⟨"408", []⟩, .ok ⟨"408", []⟩, .ok ⟨"201", [1]⟩, .ok ⟨"200", [9]⟩]) true)
    Script.quiet rfl rfl (by simp [Pending, Script.env, Script.codes])
    ⟨_, rfl, _, rfl, _, rfl, _, rfl, rfl⟩ 4 (by decide)

theorem asyncCall.run_returned (env : Env W) (n : Nat) (out : Outcome) (b : Bot W) :
    asyncCall.run env n (.returned out) b = some (out, b) := by
  cases n <;> rfl

theorem asyncCall.run_succ (env : Env W) (n : Nat) (pc : SyncPc) (b : Bot W) :
    asyncCall.run env (n + 1) pc b =
      asyncCall.run env n (asyncCall.step env pc b).1 (asyncCall.step env pc b).2 := by
  cases pc with
  | returned out => rw [asyncCall.run_returned, asyncCall.step, asyncCall.run_returned]
  | test => rfl
  | poll => rfl
  | answered resp => rfl

/-- The machine run from the loop test computes `asyncCall`. -/
theorem asyncCall_run (env : Env W) :
    ∀ (fuel : Nat) (b : Bot W) (r : Outcome × Bot W), asyncCall env fuel b = some r →
      asyncCall.run env (3 * fuel + 1) .test b = some r := by
  intro fuel
  induction fuel with
  | zero =>
    intro b r h
    unfold asyncCall at h
    by_cases ha : b.Alive = true
    · simp [ha] at h
    · simp only [ha, Bool.false_eq_true, if_false, Option.some.injEq] at h
      subst h
      rw [asyncCall.run_succ]
      simp [asyncCall.step, ha, asyncCall.run_returned]
  | succ fuel ih =>
    intro b r h
    have e3 : 3 * (fuel + 1) + 1 = (3 * fuel + 1) + 1 + 1 + 1 := by omega
    rw [asyncCall] at h
    by_cases ha : b.Alive = true
    · simp only [ha, if_true, Bot.emit] at h
      rw [e3, asyncCall.run_succ]
      simp only [asyncCall.step, ha, if_true]
      rw [asyncCall.run_succ]
      simp only [asyncCall.step, Bot.emit]
      split at h
      · rename_i e w hs
        simp only [hs, asyncCall.run_returned]
        exact h
      · rename_i resp w hs
        simp only [hs]
        rw [asyncCall.run_succ]
        simp only [asyncCall.step]
        split at h
        · rename_i h1
          simp only [h1, if_true, asyncCall.run_returned]
          exact h
        · rename_i h1
          simp only [h1, Bool.false_eq_true, if_false]
          split at h
          · rename_i h2
            simp only [h2, if_true]
            split at h
            · rename_i b2 hg
              simp only [hg]
              exact ih b2 r h
            · rename_i o b2 hne hg
              simp only [hg]
              rw [asyncCall.run_returned]
              exact h
          · rename_i h2
            simp only [h2, Bool.false_eq_true, if_false]
            exact ih _ r h
    · simp only [ha, Bool.false_eq_true, if_false, Option.some.injEq] at h
      subst h
      rw [asyncCall.run_succ]
      simp [asyncCall.step, ha, asyncCall.run_returned]

/-- From the loop test, a Bot that is not alive ends the loop at once, untouched. -/
theorem asyncCall.run_test_dead (env : Env W) (n : Nat) (b : Bot W) (h : b.Alive = false) :
    asyncCall.run env (n + 1) .test b = some (.ret none, b) := by
  rw [asyncCall.run_succ]
  simp [asyncCall.step, h, asyncCall.run_returned]

/-- What the statement after an answered poll leaves: no new `SyncCheck`, the
Bot as alive as before, and the loop at its test or returned. -/
theorem asyncCall.step_answered (env : Env W) (resp : SyncCheckResponse) (b : Bot W) :
    syncCheckCalls (asyncCall.step env (.answered resp) b).2.trace = syncCheckCalls b.trace ∧
    (asyncCall.step env (.answered resp) b).2.Alive = b.Alive ∧
    ((asyncCall.step env (.answered resp) b).1 = .test ∨
      ∃ out, (asyncCall.step env (.answered resp) b).1 = .returned out) := by
  simp only [asyncCall.step]
  split
  · exact ⟨rfl, rfl, Or.inr ⟨_, rfl⟩⟩
  · split
    · have h1 := getNewWechatMessage_syncCheckCalls env b
      have h2 := getNewWechatMessage_Alive env b
      split
      · rename_i b2 hg
        rw [hg] at h1 h2
        exact ⟨h1, h2, Or.inl rfl⟩
      · rename_i o b2 _ hg
        rw [hg] at h1 h2
        exact ⟨h1, h2, Or.inr ⟨_, rfl⟩⟩
    · exact ⟨rfl, rfl, Or.inl rfl⟩

/-- With a Bot that is not alive, a loop whose poll is answered returns within
two statements and issues no further `SyncCheck`. -/
theorem asyncCall.run_answered_dead (env : Env W) (resp : SyncCheckResponse) (b : Bot W)
    (h : b.Alive = false) :
    (∀ n, 2 ≤ n → ∃ r bf, asyncCall.run env n (.answered resp) b = some (r, bf)) ∧
    (∀ n r bf, asyncCall.run env n (.answered resp) b = some (r, bf) →
      syncCheckCalls bf.trace = syncCheckCalls b.trace) := by
  obtain ⟨h1, h2, h3⟩ := asyncCall.step_answered env resp b
  rw [h] at h2
  constructor
  · intro n hn
    obtain ⟨k, rfl⟩ : ∃ k, n = k + 1 + 1 := ⟨n - 2, by omega⟩
    rw [asyncCall.run_succ]
    rcases h3 with h3 | ⟨out, h3⟩
    · rw [h3, asyncCall.run_test_dead env k _ h2]
      exact ⟨_, _, rfl⟩
    · rw [h3, asyncCall.run_returned]
      exact ⟨_, _, rfl⟩
  · intro n r bf hr
    cases n with
    | zero => simp [asyncCall.run] at hr
    | succ k =>
      rw [asyncCall.run_succ] at hr
      rcases h3 with h3 | ⟨out, h3⟩
      · rw [h3] at hr
        cases k with
        | zero => simp [asyncCall.run] at hr
        | succ j =>
          rw [asyncCall.run_test_dead env j _ h2] at hr
          simp only [Option.some.injEq, Prod.mk.injEq] at hr
          rw [← hr.2]; exact h1
      · rw [h3, asyncCall.run_returned] at hr
        simp only [Option.some.injEq, Prod.mk.injEq] at hr
        rw [← hr.2]; exact h1

/-- What the poll statement leaves: exactly one new `SyncCheck`, the Bot as
alive as before, and the loop answered or returned. -/
theorem asyncCall.step_poll (env : Env W) (b : Bot W) :
    syncCheckCalls (asyncCall.step env .poll b).2.trace = syncCheckCalls b.trace + 1 ∧
    (asyncCall.step env .poll b).2.Alive = b.Alive ∧
    ((∃ resp, (asyncCall.step env .poll b).1 = .answered resp) ∨
      ∃ out, (asyncCall.step env .poll b).1 = .returned out) := by
  simp only [asyncCall.step, Bot.emit]
  split
  · refine ⟨?_, rfl, Or.inr ⟨_, rfl⟩⟩
    simp [syncCheckCalls]
  · refine ⟨?_, rfl, Or.inl ⟨_, rfl⟩⟩
    simp [syncCheckCalls]

/-- With a Bot that is not alive, a loop that has passed its test returns
within three statements and issues exactly one more `SyncCheck`. -/
theorem asyncCall.run_poll_dead (env : Env W) (b : Bot W) (h : b.Alive = false) :
    (∀ n, 3 ≤ n → ∃ r bf, asyncCall.run env n .poll b = some (r, bf)) ∧
    (∀ n r bf, asyncCall.run env n .poll b = some (r, bf) →
      syncCheckCalls bf.trace = syncCheckCalls b.trace + 1) := by
  obtain ⟨h1, h2, h3⟩ := asyncCall.step_poll env b
  rw [h] at h2
  constructor
  · intro n hn
    obtain ⟨k, rfl⟩ : ∃ k, n = k + 1 := ⟨n - 1, by omega⟩
    rw [asyncCall.run_succ]
    rcases h3 with ⟨resp, h3⟩ | ⟨out, h3⟩
    · rw [h3]
      exact (asyncCall.run_answered_dead env resp _ h2).1 k (by omega)
    · rw [h3, asyncCall.run_returned]
      exact ⟨_, _, rfl⟩
  · intro n r bf hr
    cases n with
    | zero => simp [asyncCall.run] at hr
    | succ k =>
      rw [asyncCall.run_succ] at hr
      rcases h3 with ⟨resp, h3⟩ | ⟨out, h3⟩
      · rw [h3] at hr
        rw [(asyncCall.run_answered_dead env resp _ h2).2 k r bf hr, h1]
      · rw [h3, asyncCall.run_returned] at hr
        simp only [Option.some.injEq, Prod.mk.injEq] at hr
        rw [← hr.2]; exact h1

/-- C6, as the code has it: the sync loop of a logged-in scripted Bot passes
its test `b.Alive()`; before it calls `SyncCheck`, `Logout` runs on the other
goroutine and returns nil, and `Alive()` is false; the loop then goes on with
its next statement and issues one more `SyncCheck`. -/
theorem C6_poll_after_logout :
    (Script.loggedIn (Script.sync [.ok ⟨"0", "0"⟩] [])).Alive = true ∧
    asyncCall.step Script.env .test (Script.loggedIn (Script.sync [.ok ⟨"0", "0"⟩] [])) =
      (.poll, Script.loggedIn (Script.sync [.ok ⟨"0", "0"⟩] [])) ∧
    (Logout Script.env (Script.loggedIn (Script.sync [.ok ⟨"0", "0"⟩] []))).1 = none ∧
    (Logout Script.env (Script.loggedIn (Script.sync [.ok ⟨"0", "0"⟩] []))).2.Alive = false ∧
    syncCheckCalls (asyncCall.step Script.env .poll
        (Logout Script.env (Script.loggedIn (Script.sync [.ok ⟨"0", "0"⟩] []))).2).2.trace =
      syncCheckCalls
        (Logout Script.env (Script.loggedIn (Script.sync [.ok ⟨"0", "0"⟩] []))).2.trace + 1 :=
  ⟨by decide, rfl, by decide, by decide, by decide⟩

/-- C6 amended: for every alive Bot whose server-side logout call succeeds,
`Logout` returns nil and `Alive()` is then false.  From that state a sync
loop that is at its test, or comes to it, ends at once with the Bot
untouched, so it issues no `SyncCheck`; a loop whose poll was already
answered issues none either and returns within two statements; and a loop
that had passed its test before `Logout` returned, nothing synchronising the
two, issues exactly one more `SyncCheck` and returns within three statements. -/
theorem C6_polls_after_logout (env : Env W) (b : Bot W) (w : W) (halive : b.Alive = true)
    (hw : env.Caller.Logout b.storage.LoginInfo b.world = (none, w)) :
    (Logout env b).1 = none ∧
    (Logout env b).2.Alive = false ∧
    (∀ fuel, asyncCall env fuel (Logout env b).2 = some (.ret none, (Logout env b).2)) ∧
    (∀ n, asyncCall.run env (n + 1) .test (Logout env b).2 = some (.ret none, (Logout env b).2)) ∧
    (∀ resp n, 2 ≤ n →
      ∃ r bf, asyncCall.run env n (.answered resp) (Logout env b).2 = some (r, bf)) ∧
    (∀ resp n r bf, asyncCall.run env n (.answered resp) (Logout env b).2 = some (r, bf) →
      syncCheckCalls bf.trace = syncCheckCalls (Logout env b).2.trace) ∧
    (∀ n, 3 ≤ n → ∃ r bf, asyncCall.run env n .poll (Logout env b).2 = some (r, bf)) ∧
    (∀ n r bf, asyncCall.run env n .poll (Logout env b).2 = some (r, bf) →
      syncCheckCalls bf.trace = syncCheckCalls (Logout env b).2.trace + 1) := by
  have h1 : (Logout env b).1 = none := by rw [Logout_ok env b w halive hw]
  have h2 : (Logout env b).2.Alive = false := by rw [Logout_ok env b w halive hw]; rfl
  exact ⟨h1, h2, fun fuel => asyncCall_not_alive env fuel _ h2,
    fun n => asyncCall.run_test_dead env n _ h2,
    fun resp => (asyncCall.run_answered_dead env resp _ h2).1,
    fun resp => (asyncCall.run_answered_dead env resp _ h2).2,
    (asyncCall.run_poll_dead env _ h2).1, (asyncCall.run_poll_dead env _ h2).2⟩

/-- Witness of C6 amended: a logged-in scripted Bot whose transport would go on
answering `SyncCheck` with "no change". -/
theorem C6_polls_after_logout_witness :
    (Logout Script.env (Script.loggedIn (Script.sync [.ok ⟨"0", "0"⟩, .ok ⟨"0", "0"⟩] []))).1 =
      none ∧
    (Logout Script.env
      (Script.loggedIn (Script.sync [.ok ⟨"0", "0"⟩, .ok ⟨"0", "0"⟩] []))).2.Alive = false ∧
    (∀ fuel, asyncCall Script.env fuel (Logout Script.env
        (Script.loggedIn (Script.sync [.ok ⟨"0", "0"⟩, .ok ⟨"0", "0"⟩] []))).2 =
      some (.ret none, (Logout Script.env
        (Script.loggedIn (Script.sync [.ok ⟨"0", "0"⟩, .ok ⟨"0", "0"⟩] []))).2)) ∧
    (∀ n, 3 ≤ n → ∃ r bf, asyncCall.run Script.env n .poll (Logout Script.env
        (Script.loggedIn (Script.sync [.ok ⟨"0", "0"⟩, .ok ⟨"0", "0"⟩] []))).2 = some (r, bf)) ∧
    (∀ n r bf, asyncCall.run Script.env n .poll (Logout Script.env
        (Script.loggedIn (Script.sync [.ok ⟨"0", "0"⟩, .ok ⟨"0", "0"⟩] []))).2 = some (r, bf) →
      syncCheckCalls bf.trace = syncCheckCalls (Logout Script.env
        (Script.loggedIn (Script.sync [.ok ⟨"0", "0"⟩, .ok ⟨"0", "0"⟩] []))).2.trace + 1) :=
  have h := C6_polls_after_logout Script.env
    (Script.loggedIn (Script.sync [.ok ⟨"0", "0"⟩, .ok ⟨"0", "0"⟩] []))
    (Script.sync [.ok ⟨"0", "0"⟩, .ok ⟨"0", "0"⟩] []) (by decide) rfl
  ⟨h.1, h.2.1, h.2.2.1, h.2.2.2.2.2.2.1, h.2.2.2.2.2.2.2⟩

theorem SameSession.refl (b : Bot W) : SameSession b b := ⟨rfl, rfl, rfl, rfl, rfl⟩

theorem SameSession.trans {b bm bc : Bot W} (h1 : SameSession b bm) (h2 : SameSession bm bc) :
    SameSession b bc :=
  ⟨h2.1.trans h1.1, h2.2.1.trans h1.2.1, h2.2.2.1.trans h1.2.2.1,
    h2.2.2.2.1.trans h1.2.2.2.1, h2.2.2.2.2.trans h1.2.2.2.2⟩

end WebWechat
